import Mathlib

/-!
# Remote signer request handler (`privval/signer_requestHandler.go`)

A shallow embedding of `DefaultValidationRequestHandler`, the dispatcher that
answers public-key, vote-signing, proposal-signing and ping requests on behalf
of a `types.PrivValidator`, followed by theorems about its contract.

Conventions of the embedding.

* A Go pointer or interface value that may be `nil` is an `Option`.
* A Go `error` is an `Option GoError`; `GoError.Error` is the text of `err.Error()`.
* The message payload types that are declared outside the handler's file
  (`tmproto.Vote`, `tmproto.Proposal`, `crypto.PubKey`, `crypto.PublicKey`) are
  type parameters `V`, `Pr`, `K`, `PK`.
* The signer is an interface: each of its methods is a function of the signer's
  state `σ` that returns its results together with the next state. `SignVote`
  and `SignProposal` write through the pointer they are given, so they return
  the contents of the pointee after the call as well.
* A nil-pointer dereference is the outcome `Outcome.panics`.
-/

set_option autoImplicit false

namespace privval

/-! ## Data model -/

/-- A non-nil Go `error`, identified with the text its `Error()` method returns. -/
structure GoError where
  Error : String
deriving DecidableEq, Repr

/-- The message `privvalproto.RemoteSignerError`. -/
structure RemoteSignerError where
  Code : Int
  Description : String
deriving DecidableEq, Repr

/-- The message `privvalproto.PubKeyRequest`. -/
structure PubKeyRequest where
  ChainId : String
deriving DecidableEq, Repr

/-- The message `privvalproto.PubKeyResponse`. -/
structure PubKeyResponse (PK : Type) where
  PubKey : Option PK
  Error : Option RemoteSignerError
deriving DecidableEq, Repr

/-- The message `privvalproto.SignVoteRequest`. -/
structure SignVoteRequest (V : Type) where
  Vote : Option V
  ChainId : String
deriving DecidableEq, Repr

/-- The message `privvalproto.SignedVoteResponse`. -/
structure SignedVoteResponse (V : Type) where
  Vote : Option V
  Error : Option RemoteSignerError
deriving DecidableEq, Repr

/-- The message `privvalproto.SignProposalRequest`. -/
structure SignProposalRequest (Pr : Type) where
  Proposal : Option Pr
  ChainId : String
deriving DecidableEq, Repr

/-- The message `privvalproto.SignedProposalResponse`. -/
structure SignedProposalResponse (Pr : Type) where
  Proposal : Option Pr
  Error : Option RemoteSignerError
deriving DecidableEq, Repr

/-- The message `privvalproto.PingRequest`. -/
structure PingRequest where
deriving DecidableEq, Repr

/-- The message `privvalproto.PingResponse`. -/
structure PingResponse where
deriving DecidableEq, Repr

/-- The oneof `isMessage_Sum` of `privvalproto.Message`: one wrapper per variant,
each holding a pointer to the message of that variant. -/
inductive isMessage_Sum (V Pr PK : Type) where
  | Message_PubKeyRequest (PubKeyRequest : Option PubKeyRequest)
  | Message_PubKeyResponse (PubKeyResponse : Option (PubKeyResponse PK))
  | Message_SignVoteRequest (SignVoteRequest : Option (SignVoteRequest V))
  | Message_SignedVoteResponse (SignedVoteResponse : Option (SignedVoteResponse V))
  | Message_SignProposalRequest (SignProposalRequest : Option (SignProposalRequest Pr))
  | Message_SignedProposalResponse (SignedProposalResponse : Option (SignedProposalResponse Pr))
  | Message_PingRequest (PingRequest : Option PingRequest)
  | Message_PingResponse (PingResponse : Option PingResponse)
deriving DecidableEq, Repr

/-- The envelope `privvalproto.Message`; `Sum = none` is the unset oneof, which is
also the zero value `privvalproto.Message{}`. -/
structure Message (V Pr PK : Type) where
  Sum : Option (isMessage_Sum V Pr PK)
deriving DecidableEq, Repr

/-- The nil-safe getter `(*PubKeyRequest).GetChainId`. -/
def PubKeyRequest.GetChainId : Option PubKeyRequest → String
  | some m => m.ChainId
  | none => ""

/-- The nil-safe getter `(*SignVoteRequest).GetChainId`. -/
def SignVoteRequest.GetChainId {V : Type} : Option (SignVoteRequest V) → String
  | some m => m.ChainId
  | none => ""

/-- The nil-safe getter `(*SignProposalRequest).GetChainId`. -/
def SignProposalRequest.GetChainId {Pr : Type} : Option (SignProposalRequest Pr) → String
  | some m => m.ChainId
  | none => ""

/-- The protobuf messages the handler hands to `mustWrapMsg`. -/
inductive ProtoMsg (V Pr PK : Type) where
  | PubKeyResponse (m : PubKeyResponse PK)
  | SignedVoteResponse (m : SignedVoteResponse V)
  | SignedProposalResponse (m : SignedProposalResponse Pr)
  | PingResponse (m : PingResponse)

/-- Modelled from the spec: `mustWrapMsg` (declared in the package's message file,
which is not part of the handler's file) puts a pointer to a response message into
the envelope, in the oneof wrapper of that message's own variant. -/
def mustWrapMsg {V Pr PK : Type} : ProtoMsg V Pr PK → Message V Pr PK
  | .PubKeyResponse m => { Sum := some (.Message_PubKeyResponse (some m)) }
  | .SignedVoteResponse m => { Sum := some (.Message_SignedVoteResponse (some m)) }
  | .SignedProposalResponse m => { Sum := some (.Message_SignedProposalResponse (some m)) }
  | .PingResponse m => { Sum := some (.Message_PingResponse (some m)) }

/-- The interface `types.PrivValidator` over a signer state `σ`.

* `GetPubKey` returns `(pubKey, err)`.
* `SignVote chainID vote` returns the contents of `vote` after the call and `err`.
* `SignProposal chainID proposal` returns the contents of `proposal` after the
  call and `err`.

Each method also returns the signer's next state. -/
structure PrivValidator (σ V Pr K : Type) where
  GetPubKey : σ → (Option K × Option GoError) × σ
  SignVote : String → Option V → σ → (Option V × Option GoError) × σ
  SignProposal : String → Option Pr → σ → (Option Pr × Option GoError) × σ

/-- One invocation of a signer method. -/
inductive SignerCall where
  | GetPubKey
  | SignVote (chainID : String)
  | SignProposal (chainID : String)
deriving DecidableEq, Repr

/-- The signer `pv` with a log of the calls made to it: the state is the state of
`pv` paired with the list of invocations so far, oldest first. The results are
those of `pv`. -/
def PrivValidator.traced {σ V Pr K : Type} (pv : PrivValidator σ V Pr K) :
    PrivValidator (σ × List SignerCall) V Pr K where
  GetPubKey := fun st =>
    let out := pv.GetPubKey st.1
    (out.1, (out.2, st.2 ++ [SignerCall.GetPubKey]))
  SignVote := fun chainID vote st =>
    let out := pv.SignVote chainID vote st.1
    (out.1, (out.2, st.2 ++ [SignerCall.SignVote chainID]))
  SignProposal := fun chainID proposal st =>
    let out := pv.SignProposal chainID proposal st.1
    (out.1, (out.2, st.2 ++ [SignerCall.SignProposal chainID]))

/-- What a call of the handler does: it returns `(res, err)` and leaves the signer
in state `signer`, or it panics on a nil-pointer dereference. -/
inductive Outcome (σ V Pr PK : Type) where
  | returns (res : Message V Pr PK) (err : Option GoError) (signer : σ)
  | panics
deriving DecidableEq, Repr

/-- The error `fmt.Errorf("want chainID: %s, got chainID: %s", a, b)`. -/
def wantChainIDErrorf (a b : String) : GoError :=
  ⟨"want chainID: " ++ a ++ ", got chainID: " ++ b⟩

/-- The error `fmt.Errorf("unknown msg: %v", r)`, given the `%v` rendering of `r`. -/
def unknownMsgErrorf (rendered : String) : GoError :=
  ⟨"unknown msg: " ++ rendered⟩

/-! ## The handler -/

/-- The function `DefaultValidationRequestHandler(privVal, req, chainID)`.

Besides the three Go arguments it takes what the Go function reaches outside its
file: `PubKeyToProto` is `cryptoenc.PubKeyToProto`, returning `(pk, err)`, and
`fmtV` is the `%v` rendering of the request's oneof value used by the default
case. `s` is the state of the signer when the handler is called.

`res` and `err` are the function-level variables of the Go code, both zero (the
empty message and `nil`) until assigned. In the
`PubKeyRequest` case the statement `pk, err := cryptoenc.PubKeyToProto(pubKey)`
declares a new `err` in the scope of the case clause (here `err1`): the two tests
that follow read that one, while the final `return res, err` reads the
function-level `err`, which holds what `GetPubKey` returned.

`r.SignVoteRequest.ChainId`, `r.SignVoteRequest.Vote` and
`r.SignProposalRequest.Proposal` read a field through the wrapper's pointer and
panic when that pointer is nil; `GetChainId` is nil-safe and yields `""` then. -/
def DefaultValidationRequestHandler {σ V Pr K PK : Type}
    (PubKeyToProto : Option K → PK × Option GoError)
    (fmtV : Option (isMessage_Sum V Pr PK) → String)
    (privVal : PrivValidator σ V Pr K)
    (req : Message V Pr PK)
    (chainID : String)
    (s : σ) : Outcome σ V Pr PK :=
  let res : Message V Pr PK := { Sum := none }
  match req.Sum with
  | some (.Message_PubKeyRequest r) =>
    if PubKeyRequest.GetChainId r ≠ chainID then
      let res := mustWrapMsg (.SignedVoteResponse
        { Vote := none,
          Error := some { Code := 0, Description := "unable to provide pubkey" } })
      .returns res (some (wantChainIDErrorf (PubKeyRequest.GetChainId r) chainID)) s
    else
      let out := privVal.GetPubKey s
      let pubKey := out.1.1
      let err := out.1.2
      let s := out.2
      let conv := PubKeyToProto pubKey
      let pk := conv.1
      let err1 := conv.2
      if err1 ≠ none then
        .returns res err1 s
      else
        let res :=
          match err1 with
          | some e =>
            mustWrapMsg (.PubKeyResponse
              { PubKey := none, Error := some { Code := 0, Description := e.Error } })
          | none => mustWrapMsg (.PubKeyResponse { PubKey := some pk, Error := none })
        .returns res err s
  | some (.Message_SignVoteRequest r) =>
    match r with
    | none => .panics
    | some m =>
      if m.ChainId ≠ chainID then
        let res := mustWrapMsg (.SignedVoteResponse
          { Vote := none,
            Error := some { Code := 0, Description := "unable to sign vote" } })
        .returns res (some (wantChainIDErrorf (SignVoteRequest.GetChainId r) chainID)) s
      else
        let vote := m.Vote
        let out := privVal.SignVote chainID vote s
        let vote := out.1.1
        let err := out.1.2
        let s := out.2
        let res :=
          match err with
          | some e =>
            mustWrapMsg (.SignedVoteResponse
              { Vote := none, Error := some { Code := 0, Description := e.Error } })
          | none => mustWrapMsg (.SignedVoteResponse { Vote := vote, Error := none })
        .returns res err s
  | some (.Message_SignProposalRequest r) =>
    if SignProposalRequest.GetChainId r ≠ chainID then
      let res := mustWrapMsg (.SignedVoteResponse
        { Vote := none,
          Error := some { Code := 0, Description := "unable to sign proposal" } })
      .returns res (some (wantChainIDErrorf (SignProposalRequest.GetChainId r) chainID)) s
    else
      match r with
      | none => .panics
      | some m =>
        let proposal := m.Proposal
        let out := privVal.SignProposal chainID proposal s
        let proposal := out.1.1
        let err := out.1.2
        let s := out.2
        let res :=
          match err with
          | some e =>
            mustWrapMsg (.SignedProposalResponse
              { Proposal := none, Error := some { Code := 0, Description := e.Error } })
          | none =>
            mustWrapMsg (.SignedProposalResponse { Proposal := proposal, Error := none })
        .returns res err s
  | some (.Message_PingRequest _) =>
    .returns (mustWrapMsg (.PingResponse {})) none s
  | r => .returns res (some (unknownMsgErrorf (fmtV r))) s

/-! ## Vocabulary for the contract -/

/-- The oneof is set to one of the four request variants the handler serves. -/
def isServedRequest {V Pr PK : Type} : Option (isMessage_Sum V Pr PK) → Bool
  | some (.Message_PubKeyRequest _) => true
  | some (.Message_SignVoteRequest _) => true
  | some (.Message_SignProposalRequest _) => true
  | some (.Message_PingRequest _) => true
  | _ => false

/-- The request is of a variant that carries a chain-id, and its chain-id differs
from `chainID`. The chain-id of a request is read as the handler reads it. -/
def chainMismatch {V Pr PK : Type} (req : Message V Pr PK) (chainID : String) : Prop :=
  match req.Sum with
  | some (.Message_PubKeyRequest r) => PubKeyRequest.GetChainId r ≠ chainID
  | some (.Message_SignVoteRequest (some m)) => m.ChainId ≠ chainID
  | some (.Message_SignProposalRequest r) => SignProposalRequest.GetChainId r ≠ chainID
  | _ => False

/-- The error returned by the signer method that serves `req`, when that method is
called with the signer in state `s`: `GetPubKey` for a `PubKeyRequest`,
`SignVote chainID vote` for a `SignVoteRequest`, `SignProposal chainID proposal`
for a `SignProposalRequest`. No method serves the other variants. -/
def signerError {σ V Pr K PK : Type} (privVal : PrivValidator σ V Pr K)
    (req : Message V Pr PK) (chainID : String) (s : σ) : Option GoError :=
  match req.Sum with
  | some (.Message_PubKeyRequest _) => (privVal.GetPubKey s).1.2
  | some (.Message_SignVoteRequest (some m)) => (privVal.SignVote chainID m.Vote s).1.2
  | some (.Message_SignProposalRequest (some m)) =>
    (privVal.SignProposal chainID m.Proposal s).1.2
  | _ => none

/-! ## Sample inputs -/

/-- A sample vote: a height and an optional signature. -/
structure SampleVote where
  Height : Nat
  Signature : Option Nat
deriving DecidableEq, Repr

/-- A sample proposal: a height and an optional signature. -/
structure SampleProposal where
  Height : Nat
  Signature : Option Nat
deriving DecidableEq, Repr

/-- A sample signature check: the signature of a vote at height `h` under key `k`
is `k + h`. -/
def SampleVote.VerifySignature (k : Nat) (v : SampleVote) : Prop :=
  v.Signature = some (k + v.Height)

instance (k : Nat) (v : SampleVote) : Decidable (SampleVote.VerifySignature k v) := by
  unfold SampleVote.VerifySignature
  exact inferInstance

/-- A sample signer holding the key `7`; its state counts the signatures made.
It leaves a nil vote or proposal alone and reports an error for it. -/
def sampleSigner : PrivValidator Nat SampleVote SampleProposal Nat where
  GetPubKey := fun n => ((some 7, none), n)
  SignVote := fun _ vote n =>
    match vote with
    | some v => ((some { v with Signature := some (7 + v.Height) }, none), n + 1)
    | none => ((none, some ⟨"nil vote"⟩), n)
  SignProposal := fun _ proposal n =>
    match proposal with
    | some p => ((some { p with Signature := some (7 + p.Height) }, none), n + 1)
    | none => ((none, some ⟨"nil proposal"⟩), n)

/-- A sample signer that refuses everything: each method returns an error and
leaves its argument and its state as they are. -/
def refusingSigner : PrivValidator Nat SampleVote SampleProposal Nat where
  GetPubKey := fun n => ((none, some ⟨"no key"⟩), n)
  SignVote := fun _ vote n => ((vote, some ⟨"height regression"⟩), n)
  SignProposal := fun _ proposal n => ((proposal, some ⟨"round regression"⟩), n)

/-- A sample signer whose `GetPubKey` returns the key `7` together with an error;
it signs as the sample signer does. -/
def staleKeySigner : PrivValidator Nat SampleVote SampleProposal Nat where
  GetPubKey := fun n => ((some 7, some ⟨"key may be stale"⟩), n)
  SignVote := sampleSigner.SignVote
  SignProposal := sampleSigner.SignProposal

/-- A sample key conversion in the manner of `cryptoenc.PubKeyToProto`: a key is
wrapped as it is, and the nil key is not supported. -/
def samplePubKeyToProto : Option Nat → Nat × Option GoError
  | some k => (k, none)
  | none => (0, some ⟨"toproto: key type <nil> is not supported"⟩)

/-- A sample `SignVoteRequest` for chain `"A"`: an unsigned vote at height 3. -/
def sampleVoteRequest : SignVoteRequest SampleVote :=
  { Vote := some { Height := 3, Signature := none }, ChainId := "A" }

/-- A sample `SignProposalRequest` for chain `"A"`: an unsigned proposal at height 3. -/
def sampleProposalRequest : SignProposalRequest SampleProposal :=
  { Proposal := some { Height := 3, Signature := none }, ChainId := "A" }

/-- A sample `%v` rendering, which tells only whether the oneof is set. -/
def sampleFmtV : Option (isMessage_Sum SampleVote SampleProposal Nat) → String
  | some _ => "&(set)"
  | none => "<nil>"

end privval

/-!
# Block execution (`state`) and validator sets (`types`)

The executor and the validator-set arithmetic are known here through their tests
(`state/execution_test.go`) and through the specification; the definitions of this
part follow the specification, and each says so.
-/

namespace types

/-- Modelled from the spec: the error kinds of section 7 that the block executor and
the validator-set operations report (the Go error values are not in the test file). -/
inductive Err where
  | ErrInvalidBlock
  | ErrProxyApp
  | ErrInvalidAppResponse
  | ErrStateSave
  | ErrValidatorNotFound
  | ErrEmptyValidatorSet
  | ErrDuplicateValidator
  | ErrNegativePower
  | ErrUnsupportedKeyType
deriving DecidableEq, Repr

/-- An address: the canonical hash of a public key, a fixed-length byte string read
as a number, so that the order of addresses is the order of numbers. -/
abbrev Address := Nat

/-- Modelled from the spec: a public key (the interface `crypto.PubKey`), given by
what its methods return: its address, its key type and its bytes. -/
structure PubKey where
  Address : Address
  KeyType : String
  Bytes : List Nat
deriving DecidableEq, Repr

/-- Modelled from the spec: a validator, `{Address, PubKey, VotingPower,
ProposerPriority}`. A voting power is non-negative; as an entry of a diff, power `0`
means removal. -/
structure Validator where
  Address : Address
  PubKey : PubKey
  VotingPower : Nat
  ProposerPriority : Int
deriving DecidableEq, Repr

/-- Modelled from the spec: `types.NewValidator(pubKey, votingPower)`, as the tests use
it: the address is that of the key and the priority starts at `0`. -/
def NewValidator (pubKey : PubKey) (votingPower : Nat) : Validator :=
  { Address := pubKey.Address, PubKey := pubKey, VotingPower := votingPower,
    ProposerPriority := 0 }

/-- Modelled from the spec: a validator set, an ordered sequence of validators with a
cached total voting power. The proposer cursor is left out: no operation below reads
it. -/
structure ValidatorSet where
  Validators : List Validator
  totalVotingPower : Nat
deriving DecidableEq, Repr

/-- The method `Size()`, as the tests use it: the number of validators. -/
def ValidatorSet.Size (vals : ValidatorSet) : Nat :=
  vals.Validators.length

/-- The method `TotalVotingPower()`, as the tests use it: the cached total. -/
def ValidatorSet.TotalVotingPower (vals : ValidatorSet) : Nat :=
  vals.totalVotingPower

/-- What the tests compare of a validator: its address and its voting power. -/
def Validator.entry (v : Validator) : types.Address × Nat :=
  (v.Address, v.VotingPower)

/-- The sum of the voting powers of a list of validators. -/
def sumVotingPower (vs : List Validator) : Nat :=
  (vs.map (fun v => v.VotingPower)).sum

/-- Step 5 of the diff algorithm, one removal: the entry with the removal's address
leaves the list. -/
def applyRemoval (vs : List Validator) (r : Validator) : List Validator :=
  vs.filter (fun v => v.Address ≠ r.Address)

/-- Step 5 of the diff algorithm, one upsert: the entry with the upsert's address is
replaced by the upsert, and an upsert with a new address is added. -/
def applyUpsert (vs : List Validator) (u : Validator) : List Validator :=
  if vs.any (fun v => v.Address = u.Address) then
    vs.map (fun v => if v.Address = u.Address then u else v)
  else
    vs ++ [u]

/-- Step 4 of the diff algorithm: the priority of an upsert is the one its address has
in the current set, and `0` when the address is new. -/
def upsertPriority (current : List Validator) (u : Validator) : Validator :=
  match current.find? (fun v => v.Address = u.Address) with
  | some v => { u with ProposerPriority := v.ProposerPriority }
  | none => { u with ProposerPriority := 0 }

/-- The constant `PriorityWindow = 2` of step 7. -/
def PriorityWindow : Int := 2

/-- Step 7 of the diff algorithm: the priorities are centred, by subtracting their
average from each, and then each is clamped to `|p| ≤ PriorityWindow * total`. -/
def rescalePriorities (vs : List Validator) (total : Nat) : List Validator :=
  let avg : Int := (vs.map (fun v => v.ProposerPriority)).sum / (vs.length : Int)
  let bound : Int := PriorityWindow * (total : Int)
  vs.map (fun v =>
    { v with ProposerPriority := max (-bound) (min bound (v.ProposerPriority - avg)) })

/-- Modelled from the spec: `(*ValidatorSet).UpdateWithChangeSet(diff)`, which is in
`types/validator_set.go` and not in the test file. It follows the seven steps of
section 4.1, in their order. The Go method changes its receiver and returns an error;
here it returns the error together with the receiver after the call, which is the
receiver as it was whenever an error is returned. The storage order of step 5 is the
order of addresses. -/
def ValidatorSet.UpdateWithChangeSet (vals : ValidatorSet) (diff : List Validator) :
    Option Err × ValidatorSet :=
  -- 1. each address appears at most once in the diff
  if ¬ (diff.map (fun d => d.Address)).Nodup then
    (some Err.ErrDuplicateValidator, vals)
  else
    -- 2. removals and upserts
    let removals := diff.filter (fun d => d.VotingPower = 0)
    let upserts := diff.filter (fun d => 0 < d.VotingPower)
    -- 3. the address of each removal must currently exist
    if ¬ removals.all (fun r => vals.Validators.any (fun v => v.Address = r.Address)) then
      (some Err.ErrValidatorNotFound, vals)
    else
      -- 4. the priorities of the upserts
      let upserts := upserts.map (upsertPriority vals.Validators)
      -- 5. removals, then upserts, stored in the order of addresses
      let merged := upserts.foldl applyUpsert (removals.foldl applyRemoval vals.Validators)
      let ordered := merged.insertionSort (fun a b => a.Address ≤ b.Address)
      -- 6. the total voting power
      let total := sumVotingPower ordered
      if total = 0 then
        (some Err.ErrEmptyValidatorSet, vals)
      else
        -- 7. rescale
        (none, { Validators := rescalePriorities ordered total, totalVotingPower := total })

/-- Modelled from the spec: `types.NewValidatorSet(validators)`, as the tests use it. A
validator set is produced by the diff application algorithm: the fresh set is the
empty set updated with the given validators. -/
def NewValidatorSet (validators : List Validator) : Option Err × ValidatorSet :=
  ValidatorSet.UpdateWithChangeSet { Validators := [], totalVotingPower := 0 } validators

/-- The invariants of a validator set in the data model: addresses are unique and
every voting power is positive. -/
def ValidatorSet.WellFormed (vals : ValidatorSet) : Prop :=
  (vals.Validators.map (fun v => v.Address)).Nodup ∧
    ∀ v ∈ vals.Validators, 0 < v.VotingPower

/-- The expected members after a diff, in the words of the tests: the old members
that the diff does not name, and every entry of the diff with a positive power (added,
or standing for the old member of the same address). -/
def expectedValidators (old diff : List Validator) : List Validator :=
  old.filter (fun v => ¬ diff.any (fun d => d.Address = v.Address)) ++
    diff.filter (fun d => 0 < d.VotingPower)

/-- Proposer selection of section 4.1: the validator of the greatest priority, the
lower address winning a tie. -/
def selectProposer : List Validator → Option Validator
  | [] => none
  | v :: vs =>
    match selectProposer vs with
    | none => some v
    | some p =>
      if p.ProposerPriority < v.ProposerPriority ∨
          (p.ProposerPriority = v.ProposerPriority ∧ v.Address ≤ p.Address) then
        some v
      else
        some p

/-- Modelled from the spec: one increment of the priorities (section 4.1 and stage F),
which is in `types/validator_set.go` and not in the test file: the priorities are
rescaled, the proposer is selected, its priority is decremented by the total voting
power, and the voting power of every validator is added to its priority. -/
def ValidatorSet.IncrementProposerPriority (vals : ValidatorSet) : ValidatorSet :=
  let vs := rescalePriorities vals.Validators vals.totalVotingPower
  match selectProposer vs with
  | none => { vals with Validators := vs }
  | some p =>
    { vals with
      Validators := vs.map (fun v =>
        { v with
          ProposerPriority :=
            (if v.Address = p.Address then
              v.ProposerPriority - (vals.totalVotingPower : Int)
            else
              v.ProposerPriority) + (v.VotingPower : Int) }) }

/-- Modelled from the spec: a commit signature, the tagged union
`{Absent, ForBlock(sig, addr, time), Nil(addr, time)}`. -/
inductive CommitSig where
  | Absent
  | ForBlock (Signature : List Nat) (ValidatorAddress : Address) (Timestamp : Nat)
  | Nil (ValidatorAddress : Address) (Timestamp : Nat)
deriving DecidableEq, Repr

/-- The signature is of the `ForBlock` variant. -/
def CommitSig.isForBlock : CommitSig → Bool
  | .ForBlock _ _ _ => true
  | _ => false

/-- Modelled from the spec: the commit of the previous block, with its signatures. -/
structure Commit where
  Signatures : List CommitSig
deriving DecidableEq, Repr

/-- Modelled from the spec: the header fields of a block that the executor reads. -/
structure Header where
  ChainID : String
  Height : Int
  Time : Nat
deriving DecidableEq, Repr

/-- Modelled from the spec: a block, `{Header, Data (txs, evidence), LastCommit}`, with
its hash. A transaction and a piece of evidence are byte strings. -/
structure Block where
  Header : Header
  Hash : List Nat
  Txs : List (List Nat)
  Evidence : List (List Nat)
  LastCommit : Commit
deriving DecidableEq, Repr

/-- Modelled from the spec: a block id, a hash and a part-set header. -/
structure BlockID where
  Hash : List Nat
  PartSetHeader : Nat × List Nat
deriving DecidableEq, Repr

end types

namespace abci

/-- Modelled from the spec: an ABCI validator diff `{PublicKey, Power}`; `Power` is a
signed 64-bit number, and `Power = 0` means removal. -/
structure ValidatorUpdate where
  PubKey : types.PubKey
  Power : Int
deriving DecidableEq, Repr

/-- Modelled from the spec: an entry of `LastCommitInfo`, a validator of the last set
paired with its `SignedLastBlock` flag. -/
structure VoteInfo where
  Validator : types.Validator
  SignedLastBlock : Bool
deriving DecidableEq, Repr

/-- Modelled from the spec: the `LastCommitInfo` of a `RequestBeginBlock`. -/
structure LastCommitInfo where
  Votes : List VoteInfo
deriving DecidableEq, Repr

/-- Modelled from the spec: an ABCI evidence record, with the fields the test gives
it. -/
structure Evidence where
  EvidenceType : Nat
  Height : Int
  Time : Nat
  Validator : types.Address × Int
  TotalVotingPower : Int
deriving DecidableEq, Repr

/-- Modelled from the spec: the request of stage B, `{Hash, Header, LastCommitInfo,
ByzantineValidators}`. -/
structure RequestBeginBlock where
  Hash : List Nat
  Header : types.Header
  LastCommitInfo : LastCommitInfo
  ByzantineValidators : List Evidence
deriving DecidableEq, Repr

/-- Modelled from the spec: the response to a `DeliverTx` request. -/
structure ResponseDeliverTx where
  Code : Nat
  Data : List Nat
deriving DecidableEq, Repr

/-- Modelled from the spec: the request of stage D, `RequestEndBlock{height}`. -/
structure RequestEndBlock where
  Height : Int
deriving DecidableEq, Repr

end abci

namespace state

open types

/-- Modelled from the spec: `tmproto.ValidatorParams`, the whitelist of key types. -/
structure ValidatorParams where
  PubKeyTypes : List String
deriving DecidableEq, Repr

/-- Modelled from the spec: `ValidateValidatorUpdates(abciUpdates, params)`, which is in
`state/execution.go` and not in the test file. The three checks of section 4.2 are made
in their order and the first failure is returned. The test calls the function for its
error alone, so that is what it returns; the conversion to validators is
`PB2TM.ValidatorUpdates`. -/
def ValidateValidatorUpdates (abciUpdates : List abci.ValidatorUpdate)
    (params : ValidatorParams) : Option Err :=
  if abciUpdates.any (fun u => u.Power < 0) then
    some Err.ErrNegativePower
  else if abciUpdates.any (fun u => ¬ u.PubKey.KeyType ∈ params.PubKeyTypes) then
    some Err.ErrUnsupportedKeyType
  else if ¬ (abciUpdates.map (fun u => u.PubKey.Address)).Nodup then
    some Err.ErrDuplicateValidator
  else
    none

/-- Modelled from the spec: `types.PB2TM.ValidatorUpdates(abciUpdates)`, as the tests
use it: each diff becomes a validator with the address of its key and its power. -/
def PB2TM.ValidatorUpdates (abciUpdates : List abci.ValidatorUpdate) : List Validator :=
  abciUpdates.map (fun u => NewValidator u.PubKey u.Power.toNat)

/-- Modelled from the spec: the consensus parameters, negotiated limits (block size,
evidence age, accepted key types). -/
structure ConsensusParams where
  BlockMaxBytes : Int
  EvidenceMaxAge : Int
  Validator : ValidatorParams
deriving DecidableEq, Repr

/-- Modelled from the spec: the response of stage D, `{ValidatorUpdates,
ConsensusParamUpdates, Events}`, with the app version stage G reads from it. -/
structure ResponseEndBlock where
  ValidatorUpdates : List abci.ValidatorUpdate
  ConsensusParamUpdates : Option ConsensusParams
  AppVersion : Nat
  Events : List String
deriving DecidableEq, Repr

/-- Modelled from the spec: the response of stage H, `{AppHash, RetainHeight}`. -/
structure ResponseCommit where
  AppHash : List Nat
  RetainHeight : Int
deriving DecidableEq, Repr

/-- The record `Version.Consensus`. -/
structure Consensus where
  Block : Nat
  App : Nat
deriving DecidableEq, Repr

/-- The record `Version`, `{Consensus:{Block, App}, Software}`. -/
structure Version where
  Consensus : Consensus
  Software : String
deriving DecidableEq, Repr

/-- Modelled from the spec: the state of section 3, the node's view at a height
boundary. -/
structure State where
  ChainID : String
  InitialHeight : Int
  LastBlockHeight : Int
  LastBlockID : BlockID
  LastBlockTime : Nat
  Validators : ValidatorSet
  NextValidators : ValidatorSet
  LastValidators : ValidatorSet
  LastHeightValidatorsChanged : Int
  ConsensusParams : ConsensusParams
  LastHeightConsensusParamsChanged : Int
  LastResultsHash : List Nat
  AppHash : List Nat
  Version : Version
deriving DecidableEq, Repr

/-- Modelled from the spec: the events of stage J. -/
inductive Event where
  | NewBlock (block : Block)
  | NewBlockHeader (header : Header)
  | Tx (tx : List Nat) (result : abci.ResponseDeliverTx)
  | ValidatorSetUpdates (updates : List Validator)
deriving DecidableEq, Repr

/-- The responses of the application to one block: those of stage C and that of
stage D. -/
structure ABCIResponses where
  DeliverTxs : List abci.ResponseDeliverTx
  EndBlock : ResponseEndBlock
deriving DecidableEq, Repr

/-- Modelled from the spec: the collaborators of the block executor, which the
specification treats as external with specified interfaces only. `ω` is the state of
everything outside the executor (application, evidence pool, mempool, store, event
bus); an operation that has an effect returns the next `ω`. A request to the
application that meets a transport error has no response (`false`, `none`).

* `verifyBlock`: the checks of stage A on the commit's votes and the block's hashes;
* `ABCIEvidence`: the evidence pool's `ABCIEvidence(height, evidence)`;
* `BeginBlock`, `DeliverTx`, `EndBlock`, `Commit`: the application connection;
* `validateParams`: the field ranges of consensus parameters;
* `resultsHash`: the hash of the results of stage C;
* `mempoolUpdate`: the mempool's `Update(height, txs, responses)`;
* `Save`: the state store, `false` when persisting fails;
* `evidenceUpdate`: the evidence pool's `Update(state)`;
* `Publish`: the event bus. -/
structure Collaborators (ω : Type) where
  verifyBlock : State → Block → Bool
  ABCIEvidence : Int → List (List Nat) → ω → List abci.Evidence
  BeginBlock : abci.RequestBeginBlock → ω → Bool × ω
  DeliverTx : List Nat → ω → Option abci.ResponseDeliverTx × ω
  EndBlock : abci.RequestEndBlock → ω → Option ResponseEndBlock × ω
  Commit : ω → Option ResponseCommit × ω
  validateParams : ConsensusParams → Bool
  resultsHash : List abci.ResponseDeliverTx → List Nat
  mempoolUpdate : Int → List (List Nat) → List abci.ResponseDeliverTx → ω → ω
  Save : State → ω → Bool × ω
  evidenceUpdate : State → ω → ω
  Publish : Event → ω → ω

/-- Stage A: the height is the one after the last block, the chain-id is the state's,
and the commit's votes and the block's hashes pass verification. -/
def validateBlock {ω : Type} (env : Collaborators ω) (state : State) (block : Block) : Bool :=
  decide (block.Header.Height = state.LastBlockHeight + 1) &&
    decide (block.Header.ChainID = state.ChainID) && env.verifyBlock state block

/-- Stage B, the votes of `LastCommitInfo`: each validator of the last set, in the
order of that set, is paired with the flag of its entry in the commit, the entry at
the validator's index; the flag is true iff that entry is a `ForBlock`. -/
def voteInfos : List Validator → List CommitSig → List abci.VoteInfo
  | [], _ => []
  | v :: vs, sigs =>
    { Validator := v,
      SignedLastBlock :=
        match sigs.head? with
        | some sig => sig.isForBlock
        | none => false } :: voteInfos vs sigs.tail

/-- Stage B: the request of `BeginBlock` for a block. -/
def beginBlockRequest {ω : Type} (env : Collaborators ω) (state : State) (block : Block)
    (w : ω) : abci.RequestBeginBlock :=
  { Hash := block.Hash,
    Header := block.Header,
    LastCommitInfo :=
      { Votes :=
          voteInfos state.LastValidators.Validators block.LastCommit.Signatures },
    ByzantineValidators := env.ABCIEvidence block.Header.Height block.Evidence w }

/-- Stage C: one `DeliverTx` request for each transaction, in block order; the
responses are collected in the same order, and a transport error aborts. -/
def deliverTxs {ω : Type} (env : Collaborators ω) :
    List (List Nat) → ω → Option (List abci.ResponseDeliverTx) × ω
  | [], w => (some [], w)
  | tx :: txs, w =>
    match env.DeliverTx tx w with
    | (none, w1) => (none, w1)
    | (some r, w1) =>
      match deliverTxs env txs w1 with
      | (none, w2) => (none, w2)
      | (some rs, w2) => (some (r :: rs), w2)

/-- Stages B, C and D: the block is run on the application. There is no result when
a request meets a transport error. -/
def execBlockOnProxyApp {ω : Type} (env : Collaborators ω) (state : State) (block : Block)
    (w : ω) : Option ABCIResponses × ω :=
  match env.BeginBlock (beginBlockRequest env state block w) w with
  | (false, w1) => (none, w1)
  | (true, w1) =>
    match deliverTxs env block.Txs w1 with
    | (none, w2) => (none, w2)
    | (some rs, w2) =>
      match env.EndBlock { Height := block.Header.Height } w2 with
      | (none, w3) => (none, w3)
      | (some e, w3) => (some { DeliverTxs := rs, EndBlock := e }, w3)

/-- Stage E: the validator updates and the consensus-parameter updates of the
`EndBlock` response are validated. -/
def validateResponses {ω : Type} (env : Collaborators ω) (state : State)
    (res : ABCIResponses) : Bool :=
  decide (ValidateValidatorUpdates res.EndBlock.ValidatorUpdates
      state.ConsensusParams.Validator = none) &&
    (match res.EndBlock.ConsensusParamUpdates with
      | some params => env.validateParams params
      | none => true)

/-- Stages F and G: the next validator set is computed from a copy of
`state.NextValidators`, advanced by one increment and updated with the diff, and the
new state is assembled; `AppHash` is filled in after stage H. An error of the diff
algorithm is returned as it is. -/
def updateState {ω : Type} (env : Collaborators ω) (state : State) (blockID : BlockID)
    (block : Block) (res : ABCIResponses) : Except Err State :=
  let validatorUpdates := PB2TM.ValidatorUpdates res.EndBlock.ValidatorUpdates
  match state.NextValidators.IncrementProposerPriority.UpdateWithChangeSet
      validatorUpdates with
  | (some err, _) => .error err
  | (none, nValSet) =>
    .ok
      { state with
        LastValidators := state.Validators,
        Validators := state.NextValidators,
        NextValidators := nValSet,
        LastHeightValidatorsChanged :=
          if validatorUpdates = [] then state.LastHeightValidatorsChanged
          else block.Header.Height + 1 + 1,
        ConsensusParams :=
          match res.EndBlock.ConsensusParamUpdates with
          | some params => params
          | none => state.ConsensusParams,
        LastHeightConsensusParamsChanged :=
          match res.EndBlock.ConsensusParamUpdates with
          | some _ => block.Header.Height + 1
          | none => state.LastHeightConsensusParamsChanged,
        LastBlockHeight := block.Header.Height,
        LastBlockID := blockID,
        LastBlockTime := block.Header.Time,
        LastResultsHash := env.resultsHash res.DeliverTxs,
        Version :=
          if res.EndBlock.AppVersion = 0 then state.Version
          else
            { state.Version with
              Consensus := { state.Version.Consensus with App := res.EndBlock.AppVersion } } }

/-- Stage J, the events: `NewBlock`, `NewBlockHeader`, one `Tx` for each transaction
and `ValidatorSetUpdates` iff the diff is not empty. -/
def fireEvents {ω : Type} (env : Collaborators ω) (block : Block) (res : ABCIResponses)
    (w : ω) : ω :=
  let w1 := env.Publish (Event.NewBlock block) w
  let w2 := env.Publish (Event.NewBlockHeader block.Header) w1
  let w3 := (block.Txs.zip res.DeliverTxs).foldl
    (fun acc p => env.Publish (Event.Tx p.1 p.2) acc) w2
  if res.EndBlock.ValidatorUpdates = [] then w3
  else
    env.Publish (Event.ValidatorSetUpdates
      (PB2TM.ValidatorUpdates res.EndBlock.ValidatorUpdates)) w3

/-- Modelled from the spec: `(*BlockExecutor).ApplyBlock(state, blockID, block)`, which
is in `state/execution.go` and not in the test file. It is the pipeline of section
4.3, stages A to J in their order; it returns `(newState, retainHeight, nil)`, or the
state it was given, `0` and the error of the stage that failed, together with the
state of the collaborators. The function is total: it has no case that panics. -/
def ApplyBlock {ω : Type} (env : Collaborators ω) (state : State) (blockID : BlockID)
    (block : Block) (w : ω) : (State × Int × Option Err) × ω :=
  -- stage A
  if validateBlock env state block = false then
    ((state, 0, some Err.ErrInvalidBlock), w)
  else
    -- stages B, C, D
    match execBlockOnProxyApp env state block w with
    | (none, w1) => ((state, 0, some Err.ErrProxyApp), w1)
    | (some res, w1) =>
      -- stage E
      if validateResponses env state res = false then
        ((state, 0, some Err.ErrInvalidAppResponse), w1)
      else
        -- stages F, G
        match updateState env state blockID block res with
        | .error err => ((state, 0, some err), w1)
        | .ok newState =>
          -- stage H
          match env.Commit w1 with
          | (none, w2) => ((state, 0, some Err.ErrProxyApp), w2)
          | (some commit, w2) =>
            let w3 := env.mempoolUpdate block.Header.Height block.Txs res.DeliverTxs w2
            let newState := { newState with AppHash := commit.AppHash }
            -- stage I
            match env.Save newState w3 with
            | (false, w4) => ((state, 0, some Err.ErrStateSave), w4)
            | (true, w4) =>
              -- stage J
              let w5 := env.evidenceUpdate newState w4
              let w6 := fireEvents env block res w5
              ((newState, commit.RetainHeight, none), w6)

/-- The collaborators `env` with a log of the `BeginBlock` requests the application
receives: the state is that of `env` paired with the requests so far, oldest first.
Every operation does what it does in `env`. -/
def Collaborators.recording {ω : Type} (env : Collaborators ω) :
    Collaborators (ω × List abci.RequestBeginBlock) where
  verifyBlock := env.verifyBlock
  ABCIEvidence := fun h ev st => env.ABCIEvidence h ev st.1
  BeginBlock := fun req st => ((env.BeginBlock req st.1).1, ((env.BeginBlock req st.1).2,
    st.2 ++ [req]))
  DeliverTx := fun tx st => ((env.DeliverTx tx st.1).1, ((env.DeliverTx tx st.1).2, st.2))
  EndBlock := fun req st => ((env.EndBlock req st.1).1, ((env.EndBlock req st.1).2, st.2))
  Commit := fun st => ((env.Commit st.1).1, ((env.Commit st.1).2, st.2))
  validateParams := env.validateParams
  resultsHash := env.resultsHash
  mempoolUpdate := fun h txs rs st => (env.mempoolUpdate h txs rs st.1, st.2)
  Save := fun state st => ((env.Save state st.1).1, ((env.Save state st.1).2, st.2))
  evidenceUpdate := fun state st => (env.evidenceUpdate state st.1, st.2)
  Publish := fun ev st => (env.Publish ev st.1, st.2)

/-- The validator updates remove all the validators of `vals`: every update is a
removal (power `0`) and every validator of `vals` is named by one of them. -/
def RemovesAll (vals : ValidatorSet) (updates : List abci.ValidatorUpdate) : Prop :=
  (∀ u ∈ updates, u.Power = 0) ∧
    ∀ v ∈ vals.Validators, ∃ u ∈ updates, u.PubKey.Address = v.Address

/-! ## Sample inputs -/

/-- A sample key of type `ed25519`, with address `5`. -/
def samplePubKey1 : PubKey :=
  { Address := 5, KeyType := "ed25519", Bytes := [1] }

/-- A sample key of type `ed25519`, with address `3`. -/
def samplePubKey2 : PubKey :=
  { Address := 3, KeyType := "ed25519", Bytes := [2] }

/-- The validator `val1` of the tests: the first key with power `10`. -/
def sampleVal1 : Validator :=
  NewValidator samplePubKey1 10

/-- The validator `val2` of the tests: the second key with power `20`. -/
def sampleVal2 : Validator :=
  NewValidator samplePubKey2 20

/-- The set of `val1` alone. -/
def sampleSet1 : ValidatorSet :=
  { Validators := [sampleVal1], totalVotingPower := 10 }

/-- The set of `val2` and `val1`, in the order of addresses. -/
def sampleSet2 : ValidatorSet :=
  { Validators := [sampleVal2, sampleVal1], totalVotingPower := 30 }

/-- The validator parameters of the tests: `ed25519` keys only. -/
def defaultValidatorParams : ValidatorParams :=
  { PubKeyTypes := ["ed25519"] }

/-- A sample application and surroundings, in the manner of the tests' `testApp`: every
request succeeds, `EndBlock` returns the given validator updates, and the state of the
collaborators counts the requests sent to the application. -/
def sampleApp (updates : List abci.ValidatorUpdate) : Collaborators Nat where
  verifyBlock := fun _ _ => true
  ABCIEvidence := fun _ _ _ => []
  BeginBlock := fun _ n => (true, n + 1)
  DeliverTx := fun tx n => (some { Code := 0, Data := tx }, n + 1)
  EndBlock := fun _ n =>
    (some { ValidatorUpdates := updates, ConsensusParamUpdates := none, AppVersion := 1,
            Events := [] }, n + 1)
  Commit := fun n => (some { AppHash := [0], RetainHeight := 1 }, n + 1)
  validateParams := fun _ => true
  resultsHash := fun _ => []
  mempoolUpdate := fun _ _ _ n => n
  Save := fun _ n => (true, n)
  evidenceUpdate := fun _ n => n
  Publish := fun _ n => n

/-- A sample application that answers `EndBlock` with the given validator updates at
the given height only, and with no update at any other height; otherwise it is the
sample application. -/
def sampleAppAtHeight (height : Int) (updates : List abci.ValidatorUpdate) :
    Collaborators Nat :=
  { sampleApp [] with
    EndBlock := fun req n =>
      (some { ValidatorUpdates := if req.Height = height then updates else [],
              ConsensusParamUpdates := none, AppVersion := 1, Events := [] }, n + 1) }

/-- A sample state at height `1` on chain `"execution_chain"`, whose three validator sets
are the given set. -/
def sampleState (vals : ValidatorSet) : State :=
  { ChainID := "execution_chain",
    InitialHeight := 1,
    LastBlockHeight := 1,
    LastBlockID := { Hash := [], PartSetHeader := (0, []) },
    LastBlockTime := 0,
    Validators := vals,
    NextValidators := vals,
    LastValidators := vals,
    LastHeightValidatorsChanged := 1,
    ConsensusParams :=
      { BlockMaxBytes := 1024, EvidenceMaxAge := 10, Validator := defaultValidatorParams },
    LastHeightConsensusParamsChanged := 1,
    LastResultsHash := [],
    AppHash := [],
    Version := { Consensus := { Block := 1, App := 0 }, Software := "" } }

/-- A sample block for height `2` on chain `"execution_chain"`, with one transaction and
the given signatures in its last commit. -/
def sampleBlock (sigs : List CommitSig) : Block :=
  { Header := { ChainID := "execution_chain", Height := 2, Time := 1 },
    Hash := [7],
    Txs := [[1, 2]],
    Evidence := [],
    LastCommit := { Signatures := sigs } }

end state

namespace privval

/-! ## General facts -/

/-- Both chain-ids occur in the text of the chain-mismatch error. -/
theorem wantChainIDErrorf_mentions (a b : String) :
    a.data <:+: (wantChainIDErrorf a b).Error.data ∧
      b.data <:+: (wantChainIDErrorf a b).Error.data := by
  constructor
  · exact ⟨"want chainID: ".data, ", got chainID: ".data ++ b.data, by
      simp [wantChainIDErrorf, String.data_append]⟩
  · exact ⟨"want chainID: ".data ++ a.data ++ ", got chainID: ".data, [], by
      simp [wantChainIDErrorf, String.data_append]⟩

/-! ## Chain-id mismatch -/

/-- C1: a `SignVoteRequest` whose `ChainId` differs from the bound chain-id is answered
with a `SignedVoteResponse` with `Vote = nil` and `Error = {0, "unable to sign vote"}`,
together with a non-nil error whose text contains the request's chain-id and the bound
chain-id; the signer's state is left as it was. -/
theorem signVote_chain_mismatch {σ V Pr K PK : Type}
    (PubKeyToProto : Option K → PK × Option GoError)
    (fmtV : Option (isMessage_Sum V Pr PK) → String)
    (privVal : PrivValidator σ V Pr K) (m : SignVoteRequest V) (chainID : String) (s : σ)
    (h : m.ChainId ≠ chainID) :
    ∃ e : GoError,
      DefaultValidationRequestHandler PubKeyToProto fmtV privVal
          { Sum := some (.Message_SignVoteRequest (some m)) } chainID s =
        .returns
          { Sum := some (.Message_SignedVoteResponse (some
              { Vote := none,
                Error := some { Code := 0, Description := "unable to sign vote" } })) }
          (some e) s ∧
      m.ChainId.data <:+: e.Error.data ∧ chainID.data <:+: e.Error.data := by
  refine ⟨wantChainIDErrorf m.ChainId chainID, ?_, wantChainIDErrorf_mentions _ _⟩
  simp [DefaultValidationRequestHandler, h, mustWrapMsg, SignVoteRequest.GetChainId]

/-- Witness of C1: the server is bound to chain `"A"` and the request names chain `"B"`. -/
theorem signVote_chain_mismatch_witness :
    ("B" : String) ≠ "A" ∧
    ∃ e : GoError,
      DefaultValidationRequestHandler samplePubKeyToProto sampleFmtV sampleSigner
          { Sum := some (.Message_SignVoteRequest (some
              { Vote := some { Height := 3, Signature := none }, ChainId := "B" })) } "A" 0 =
        .returns
          { Sum := some (.Message_SignedVoteResponse (some
              { Vote := none,
                Error := some { Code := 0, Description := "unable to sign vote" } })) }
          (some e) 0 ∧
      ("B" : String).data <:+: e.Error.data ∧ ("A" : String).data <:+: e.Error.data :=
  ⟨by decide,
    signVote_chain_mismatch samplePubKeyToProto sampleFmtV sampleSigner
      { Vote := some { Height := 3, Signature := none }, ChainId := "B" } "A" 0 (by decide)⟩

/-- C2 (the code departs from the claim): a `SignProposalRequest` for chain `"B"` sent
to a handler bound to chain `"A"` is answered with a message of the `SignedVoteResponse`
variant, carrying `Vote = nil` and the description `"unable to sign proposal"`, and not with
a `SignedProposalResponse`. -/
theorem signProposal_chain_mismatch_is_vote_response :
    DefaultValidationRequestHandler samplePubKeyToProto sampleFmtV sampleSigner
        { Sum := some (.Message_SignProposalRequest (some
            { Proposal := some { Height := 3, Signature := none }, ChainId := "B" })) } "A" 0 =
      .returns
        { Sum := some (.Message_SignedVoteResponse (some
            { Vote := none,
              Error := some { Code := 0, Description := "unable to sign proposal" } })) }
        (some ⟨"want chainID: B, got chainID: A"⟩) 0 := by
  decide

/-- C3: a `PubKeyRequest` whose chain-id differs from the bound chain-id is answered with a
message of the `SignedVoteResponse` variant, with `Vote = nil` and
`Error = {0, "unable to provide pubkey"}`, together with a non-nil error; the signer's state
is left as it was. -/
theorem pubKey_chain_mismatch {σ V Pr K PK : Type}
    (PubKeyToProto : Option K → PK × Option GoError)
    (fmtV : Option (isMessage_Sum V Pr PK) → String)
    (privVal : PrivValidator σ V Pr K) (r : Option PubKeyRequest) (chainID : String) (s : σ)
    (h : PubKeyRequest.GetChainId r ≠ chainID) :
    DefaultValidationRequestHandler PubKeyToProto fmtV privVal
        { Sum := some (.Message_PubKeyRequest r) } chainID s =
      .returns
        { Sum := some (.Message_SignedVoteResponse (some
            { Vote := none,
              Error := some { Code := 0, Description := "unable to provide pubkey" } })) }
        (some (wantChainIDErrorf (PubKeyRequest.GetChainId r) chainID)) s := by
  simp [DefaultValidationRequestHandler, h, mustWrapMsg]

/-- Witness of C3: the server is bound to chain `"A"` and the request names chain `"B"`. -/
theorem pubKey_chain_mismatch_witness :
    PubKeyRequest.GetChainId (some { ChainId := "B" }) ≠ "A" ∧
    DefaultValidationRequestHandler samplePubKeyToProto sampleFmtV sampleSigner
        { Sum := some (.Message_PubKeyRequest (some { ChainId := "B" })) } "A" 0 =
      .returns
        { Sum := some (.Message_SignedVoteResponse (some
            { Vote := none,
              Error := some { Code := 0, Description := "unable to provide pubkey" } })) }
        (some (wantChainIDErrorf (PubKeyRequest.GetChainId (some { ChainId := "B" })) "A")) 0 :=
  ⟨by decide,
    pubKey_chain_mismatch samplePubKeyToProto sampleFmtV sampleSigner
      (some { ChainId := "B" }) "A" 0 (by decide)⟩

/-! ## Signer errors -/

/-- C4 (the code departs from the claim): a chain-matching `PubKeyRequest` served by a signer
whose `GetPubKey` returns the nil key and the error `"no key"` is not answered with
`PubKeyResponse{PubKey: nil, Error: "no key"}`. When the key conversion rejects the nil key,
the handler returns the empty message and the conversion's error; when the conversion accepts
it, the handler returns a `PubKeyResponse` with the converted key and `Error = nil`, and the
signer's error only beside the response. -/
theorem pubKey_signer_error_not_in_payload :
    DefaultValidationRequestHandler samplePubKeyToProto sampleFmtV refusingSigner
        { Sum := some (.Message_PubKeyRequest (some { ChainId := "A" })) } "A" 0 =
      .returns { Sum := none } (some ⟨"toproto: key type <nil> is not supported"⟩) 0 ∧
    DefaultValidationRequestHandler (fun _ => ((0 : Nat), none)) sampleFmtV refusingSigner
        { Sum := some (.Message_PubKeyRequest (some { ChainId := "A" })) } "A" 0 =
      .returns
        { Sum := some (.Message_PubKeyResponse (some { PubKey := some 0, Error := none })) }
        (some ⟨"no key"⟩) 0 := by
  constructor <;> decide

/-- C5: when the signer's `SignVote` (resp. `SignProposal`) returns an error `e` on a
chain-matching `SignVoteRequest` (resp. `SignProposalRequest`), the handler returns, and its
response is a `SignedVoteResponse` (resp. `SignedProposalResponse`) with nil `Vote` (resp. nil
`Proposal`) and `Error = {0, e.Error()}`. -/
theorem sign_error_in_payload {σ V Pr K PK : Type}
    (PubKeyToProto : Option K → PK × Option GoError)
    (fmtV : Option (isMessage_Sum V Pr PK) → String)
    (privVal : PrivValidator σ V Pr K) (chainID : String) (s : σ)
    (mv : SignVoteRequest V) (mp : SignProposalRequest Pr) (e : GoError) :
    (mv.ChainId = chainID → (privVal.SignVote chainID mv.Vote s).1.2 = some e →
      ∃ err s1,
        DefaultValidationRequestHandler PubKeyToProto fmtV privVal
            { Sum := some (.Message_SignVoteRequest (some mv)) } chainID s =
          .returns
            { Sum := some (.Message_SignedVoteResponse (some
                { Vote := none,
                  Error := some { Code := 0, Description := e.Error } })) }
            err s1) ∧
    (mp.ChainId = chainID → (privVal.SignProposal chainID mp.Proposal s).1.2 = some e →
      ∃ err s1,
        DefaultValidationRequestHandler PubKeyToProto fmtV privVal
            { Sum := some (.Message_SignProposalRequest (some mp)) } chainID s =
          .returns
            { Sum := some (.Message_SignedProposalResponse (some
                { Proposal := none,
                  Error := some { Code := 0, Description := e.Error } })) }
            err s1) := by
  constructor
  · intro hc he
    exact ⟨some e, (privVal.SignVote chainID mv.Vote s).2, by
      simp [DefaultValidationRequestHandler, hc, he, mustWrapMsg]⟩
  · intro hc he
    exact ⟨some e, (privVal.SignProposal chainID mp.Proposal s).2, by
      simp [DefaultValidationRequestHandler, hc, he, mustWrapMsg,
        SignProposalRequest.GetChainId]⟩

/-- Witness of C5: the refusing signer on chain `"A"`, asked to sign a vote and a proposal
at height 3. -/
theorem sign_error_in_payload_witness :
    (("A" : String) = "A" ∧
      (refusingSigner.SignVote "A" (some { Height := 3, Signature := none }) 0).1.2 =
        some ⟨"height regression"⟩ ∧
      ∃ err s1,
        DefaultValidationRequestHandler samplePubKeyToProto sampleFmtV refusingSigner
            { Sum := some (.Message_SignVoteRequest (some
                { Vote := some { Height := 3, Signature := none }, ChainId := "A" })) } "A" 0 =
          .returns
            { Sum := some (.Message_SignedVoteResponse (some
                { Vote := none,
                  Error := some { Code := 0, Description := "height regression" } })) }
            err s1) ∧
    (("A" : String) = "A" ∧
      (refusingSigner.SignProposal "A" (some { Height := 3, Signature := none }) 0).1.2 =
        some ⟨"round regression"⟩ ∧
      ∃ err s1,
        DefaultValidationRequestHandler samplePubKeyToProto sampleFmtV refusingSigner
            { Sum := some (.Message_SignProposalRequest (some
                { Proposal := some { Height := 3, Signature := none }, ChainId := "A" })) }
            "A" 0 =
          .returns
            { Sum := some (.Message_SignedProposalResponse (some
                { Proposal := none,
                  Error := some { Code := 0, Description := "round regression" } })) }
            err s1) :=
  ⟨⟨rfl, rfl,
      (sign_error_in_payload samplePubKeyToProto sampleFmtV refusingSigner "A" 0
        { Vote := some { Height := 3, Signature := none }, ChainId := "A" }
        { Proposal := some { Height := 3, Signature := none }, ChainId := "A" }
        ⟨"height regression"⟩).1 rfl rfl⟩,
    ⟨rfl, rfl,
      (sign_error_in_payload samplePubKeyToProto sampleFmtV refusingSigner "A" 0
        { Vote := some { Height := 3, Signature := none }, ChainId := "A" }
        { Proposal := some { Height := 3, Signature := none }, ChainId := "A" }
        ⟨"round regression"⟩).2 rfl rfl⟩⟩

/-- Counterexample to C6: the refusing signer rejects a chain-matching `SignVoteRequest`
with the error `"height regression"`, and the handler returns that error beside the
response, not a nil error. -/
theorem signer_error_returned_not_nil :
    ¬ chainMismatch
        ({ Sum := some (.Message_SignVoteRequest (some
            { Vote := some { Height := 3, Signature := none }, ChainId := "A" })) } :
          Message SampleVote SampleProposal Nat) "A" ∧
    (refusingSigner.SignVote "A" (some { Height := 3, Signature := none }) 0).1.2 =
      some ⟨"height regression"⟩ ∧
    DefaultValidationRequestHandler samplePubKeyToProto sampleFmtV refusingSigner
        { Sum := some (.Message_SignVoteRequest (some
            { Vote := some { Height := 3, Signature := none }, ChainId := "A" })) } "A" 0 =
      .returns
        { Sum := some (.Message_SignedVoteResponse (some
            { Vote := none,
              Error := some { Code := 0, Description := "height regression" } })) }
        (some ⟨"height regression"⟩) 0 ∧
    ¬ ∃ res s1,
      DefaultValidationRequestHandler samplePubKeyToProto sampleFmtV refusingSigner
          { Sum := some (.Message_SignVoteRequest (some
              { Vote := some { Height := 3, Signature := none }, ChainId := "A" })) } "A" 0 =
        .returns res none s1 := by
  refine ⟨by simp [chainMismatch], rfl, by decide, ?_⟩
  rintro ⟨res, s1, h⟩
  have h0 :
      DefaultValidationRequestHandler samplePubKeyToProto sampleFmtV refusingSigner
          { Sum := some (.Message_SignVoteRequest (some
              { Vote := some { Height := 3, Signature := none }, ChainId := "A" })) } "A" 0 =
        .returns
          { Sum := some (.Message_SignedVoteResponse (some
              { Vote := none,
                Error := some { Code := 0, Description := "height regression" } })) }
          (some ⟨"height regression"⟩) 0 := by decide
  rw [h0] at h
  cases h

/-- C6, amended: when the signer returns an error `e` on a chain-matching `SignVoteRequest`
or `SignProposalRequest`, the handler returns that same error `e` beside the response; and
whenever the handler returns a non-nil error `e` beside a non-empty response, either the
request's chain-id differs from the bound chain-id or `e` is the error the signer returned. -/
theorem signer_error_is_returned {σ V Pr K PK : Type}
    (PubKeyToProto : Option K → PK × Option GoError)
    (fmtV : Option (isMessage_Sum V Pr PK) → String)
    (privVal : PrivValidator σ V Pr K) (chainID : String) (s : σ)
    (mv : SignVoteRequest V) (mp : SignProposalRequest Pr) (req : Message V Pr PK)
    (e : GoError) :
    (mv.ChainId = chainID → (privVal.SignVote chainID mv.Vote s).1.2 = some e →
      ∃ res s1,
        DefaultValidationRequestHandler PubKeyToProto fmtV privVal
            { Sum := some (.Message_SignVoteRequest (some mv)) } chainID s =
          .returns res (some e) s1) ∧
    (mp.ChainId = chainID → (privVal.SignProposal chainID mp.Proposal s).1.2 = some e →
      ∃ res s1,
        DefaultValidationRequestHandler PubKeyToProto fmtV privVal
            { Sum := some (.Message_SignProposalRequest (some mp)) } chainID s =
          .returns res (some e) s1) ∧
    (∀ res s1,
      DefaultValidationRequestHandler PubKeyToProto fmtV privVal req chainID s =
          .returns res (some e) s1 →
        res.Sum ≠ none →
        chainMismatch req chainID ∨ signerError privVal req chainID s = some e) := by
  refine ⟨?_, ?_, ?_⟩
  · intro hc he
    exact ⟨_, (privVal.SignVote chainID mv.Vote s).2, by
      simp [DefaultValidationRequestHandler, hc, he, mustWrapMsg]; rfl⟩
  · intro hc he
    exact ⟨_, (privVal.SignProposal chainID mp.Proposal s).2, by
      simp [DefaultValidationRequestHandler, hc, he, mustWrapMsg,
        SignProposalRequest.GetChainId]; rfl⟩
  · intro res s1 h hres
    rcases req with ⟨_ | sum⟩
    · simp only [DefaultValidationRequestHandler, Outcome.returns.injEq] at h
      exact absurd (by rw [← h.1]) hres
    · cases sum with
      | Message_PubKeyRequest r =>
        by_cases hc : PubKeyRequest.GetChainId r = chainID
        · right
          simp only [DefaultValidationRequestHandler, hc, ne_eq, not_true_eq_false,
            if_false] at h
          split_ifs at h with h1
          · simp only [Outcome.returns.injEq] at h
            simpa [signerError] using h.2.1
          · simp only [Outcome.returns.injEq] at h
            exact absurd (by rw [← h.1]) hres
        · left
          simpa [chainMismatch] using hc
      | Message_SignVoteRequest r =>
        cases r with
        | none => simp [DefaultValidationRequestHandler] at h
        | some m =>
          by_cases hc : m.ChainId = chainID
          · right
            simp only [DefaultValidationRequestHandler, hc, ne_eq, not_true_eq_false,
              if_false, Outcome.returns.injEq] at h
            simpa [signerError, hc] using h.2.1
          · left
            simpa [chainMismatch] using hc
      | Message_SignProposalRequest r =>
        by_cases hc : SignProposalRequest.GetChainId r = chainID
        · right
          cases r with
          | none => simp [DefaultValidationRequestHandler, hc] at h
          | some m =>
            simp only [DefaultValidationRequestHandler, hc, ne_eq, not_true_eq_false,
              if_false, Outcome.returns.injEq] at h
            simpa [signerError, hc] using h.2.1
        · left
          simpa [chainMismatch] using hc
      | Message_PingRequest r =>
        simp [DefaultValidationRequestHandler] at h
      | Message_PubKeyResponse r =>
        simp only [DefaultValidationRequestHandler, Outcome.returns.injEq] at h
        exact absurd (by rw [← h.1]) hres
      | Message_SignedVoteResponse r =>
        simp only [DefaultValidationRequestHandler, Outcome.returns.injEq] at h
        exact absurd (by rw [← h.1]) hres
      | Message_SignedProposalResponse r =>
        simp only [DefaultValidationRequestHandler, Outcome.returns.injEq] at h
        exact absurd (by rw [← h.1]) hres
      | Message_PingResponse r =>
        simp only [DefaultValidationRequestHandler, Outcome.returns.injEq] at h
        exact absurd (by rw [← h.1]) hres

/-- Witness of C6, amended: the refusing signer on chain `"A"`, asked to sign the sample
vote and the sample proposal. -/
theorem signer_error_is_returned_witness :
    (sampleVoteRequest.ChainId = "A" ∧
      (refusingSigner.SignVote "A" sampleVoteRequest.Vote 0).1.2 =
        some ⟨"height regression"⟩ ∧
      ∃ res s1,
        DefaultValidationRequestHandler samplePubKeyToProto sampleFmtV refusingSigner
            { Sum := some (.Message_SignVoteRequest (some sampleVoteRequest)) } "A" 0 =
          .returns res (some ⟨"height regression"⟩) s1) ∧
    (sampleProposalRequest.ChainId = "A" ∧
      (refusingSigner.SignProposal "A" sampleProposalRequest.Proposal 0).1.2 =
        some ⟨"round regression"⟩ ∧
      ∃ res s1,
        DefaultValidationRequestHandler samplePubKeyToProto sampleFmtV refusingSigner
            { Sum := some (.Message_SignProposalRequest (some sampleProposalRequest)) } "A" 0 =
          .returns res (some ⟨"round regression"⟩) s1) ∧
    (DefaultValidationRequestHandler samplePubKeyToProto sampleFmtV refusingSigner
          { Sum := some (.Message_SignVoteRequest (some sampleVoteRequest)) } "A" 0 =
        .returns
          { Sum := some (.Message_SignedVoteResponse (some
              { Vote := none,
                Error := some { Code := 0, Description := "height regression" } })) }
          (some ⟨"height regression"⟩) 0 ∧
      (chainMismatch
          ({ Sum := some (.Message_SignVoteRequest (some sampleVoteRequest)) } :
            Message SampleVote SampleProposal Nat) "A" ∨
        signerError refusingSigner
          ({ Sum := some (.Message_SignVoteRequest (some sampleVoteRequest)) } :
            Message SampleVote SampleProposal Nat) "A" 0 = some ⟨"height regression"⟩)) :=
  ⟨⟨rfl, rfl,
      (signer_error_is_returned samplePubKeyToProto sampleFmtV refusingSigner "A" 0
        sampleVoteRequest sampleProposalRequest
        { Sum := some (.Message_SignVoteRequest (some sampleVoteRequest)) }
        ⟨"height regression"⟩).1 rfl rfl⟩,
    ⟨rfl, rfl,
      (signer_error_is_returned samplePubKeyToProto sampleFmtV refusingSigner "A" 0
        sampleVoteRequest sampleProposalRequest
        { Sum := some (.Message_SignVoteRequest (some sampleVoteRequest)) }
        ⟨"round regression"⟩).2.1 rfl rfl⟩,
    ⟨by decide,
      (signer_error_is_returned samplePubKeyToProto sampleFmtV refusingSigner "A" 0
        sampleVoteRequest sampleProposalRequest
        { Sum := some (.Message_SignVoteRequest (some sampleVoteRequest)) }
        ⟨"height regression"⟩).2.2
        { Sum := some (.Message_SignedVoteResponse (some
            { Vote := none,
              Error := some { Code := 0, Description := "height regression" } })) }
        0 (by decide) (by simp)⟩⟩

/-! ## Success -/

/-- C7: when the signer's `SignVote` (resp. `SignProposal`) returns a nil error on a
chain-matching `SignVoteRequest` (resp. `SignProposalRequest`), the handler returns a nil error
and a `SignedVoteResponse` (resp. `SignedProposalResponse`) with `Error = nil` whose `Vote`
(resp. `Proposal`) is the request's object as the signer left it. Hence a property the signer
establishes on the vote, such as carrying a signature that verifies under a key `k`, holds of
the vote in the response. -/
theorem sign_success {σ V Pr K PK : Type}
    (PubKeyToProto : Option K → PK × Option GoError)
    (fmtV : Option (isMessage_Sum V Pr PK) → String)
    (privVal : PrivValidator σ V Pr K) (chainID : String) (s : σ)
    (mv : SignVoteRequest V) (mp : SignProposalRequest Pr)
    (VerifySignature : K → V → Prop) :
    (mv.ChainId = chainID → (privVal.SignVote chainID mv.Vote s).1.2 = none →
      DefaultValidationRequestHandler PubKeyToProto fmtV privVal
          { Sum := some (.Message_SignVoteRequest (some mv)) } chainID s =
        .returns
          { Sum := some (.Message_SignedVoteResponse (some
              { Vote := (privVal.SignVote chainID mv.Vote s).1.1, Error := none })) }
          none (privVal.SignVote chainID mv.Vote s).2) ∧
    (mp.ChainId = chainID → (privVal.SignProposal chainID mp.Proposal s).1.2 = none →
      DefaultValidationRequestHandler PubKeyToProto fmtV privVal
          { Sum := some (.Message_SignProposalRequest (some mp)) } chainID s =
        .returns
          { Sum := some (.Message_SignedProposalResponse (some
              { Proposal := (privVal.SignProposal chainID mp.Proposal s).1.1,
                Error := none })) }
          none (privVal.SignProposal chainID mp.Proposal s).2) ∧
    (mv.ChainId = chainID → (privVal.SignVote chainID mv.Vote s).1.2 = none →
      ∀ (k : K) (v : V), (privVal.SignVote chainID mv.Vote s).1.1 = some v →
        VerifySignature k v →
        ∃ v1,
          DefaultValidationRequestHandler PubKeyToProto fmtV privVal
              { Sum := some (.Message_SignVoteRequest (some mv)) } chainID s =
            .returns
              { Sum := some (.Message_SignedVoteResponse (some
                  { Vote := some v1, Error := none })) }
              none (privVal.SignVote chainID mv.Vote s).2 ∧
          VerifySignature k v1) := by
  refine ⟨?_, ?_, ?_⟩
  · intro hc he
    simp [DefaultValidationRequestHandler, hc, he, mustWrapMsg]
  · intro hc he
    simp [DefaultValidationRequestHandler, hc, he, mustWrapMsg,
      SignProposalRequest.GetChainId]
  · intro hc he k v hv hk
    exact ⟨v, by simp [DefaultValidationRequestHandler, hc, he, hv, mustWrapMsg], hk⟩

/-- Witness of C7: the sample signer on chain `"A"` signs the sample vote and the sample
proposal, and the vote in the response verifies under the key `7` that its `GetPubKey`
returns. -/
theorem sign_success_witness :
    (sampleVoteRequest.ChainId = "A" ∧
      (sampleSigner.SignVote "A" sampleVoteRequest.Vote 0).1.2 = none ∧
      DefaultValidationRequestHandler samplePubKeyToProto sampleFmtV sampleSigner
          { Sum := some (.Message_SignVoteRequest (some sampleVoteRequest)) } "A" 0 =
        .returns
          { Sum := some (.Message_SignedVoteResponse (some
              { Vote := some { Height := 3, Signature := some 10 }, Error := none })) }
          none 1) ∧
    (sampleProposalRequest.ChainId = "A" ∧
      (sampleSigner.SignProposal "A" sampleProposalRequest.Proposal 0).1.2 = none ∧
      DefaultValidationRequestHandler samplePubKeyToProto sampleFmtV sampleSigner
          { Sum := some (.Message_SignProposalRequest (some sampleProposalRequest)) } "A" 0 =
        .returns
          { Sum := some (.Message_SignedProposalResponse (some
              { Proposal := some { Height := 3, Signature := some 10 }, Error := none })) }
          none 1) ∧
    ((sampleSigner.GetPubKey 1).1.1 = some 7 ∧
      SampleVote.VerifySignature 7 { Height := 3, Signature := some 10 } ∧
      ∃ v1,
        DefaultValidationRequestHandler samplePubKeyToProto sampleFmtV sampleSigner
            { Sum := some (.Message_SignVoteRequest (some sampleVoteRequest)) } "A" 0 =
          .returns
            { Sum := some (.Message_SignedVoteResponse (some
                { Vote := some v1, Error := none })) }
            none 1 ∧
        SampleVote.VerifySignature 7 v1) :=
  ⟨⟨rfl, rfl,
      (sign_success samplePubKeyToProto sampleFmtV sampleSigner "A" 0
        sampleVoteRequest sampleProposalRequest SampleVote.VerifySignature).1 rfl rfl⟩,
    ⟨rfl, rfl,
      (sign_success samplePubKeyToProto sampleFmtV sampleSigner "A" 0
        sampleVoteRequest sampleProposalRequest SampleVote.VerifySignature).2.1 rfl rfl⟩,
    ⟨rfl, by decide,
      (sign_success samplePubKeyToProto sampleFmtV sampleSigner "A" 0
        sampleVoteRequest sampleProposalRequest SampleVote.VerifySignature).2.2 rfl rfl
        7 { Height := 3, Signature := some 10 } rfl (by decide)⟩⟩

/-- C8: on a `PubKeyRequest` whose chain-id equals the bound chain-id, when the signer's
`GetPubKey` returns the key `k` with a nil error and `k` converts to the protobuf key `pk`,
the handler returns a nil error and a `PubKeyResponse` with `PubKey = pk` and `Error = nil`. -/
theorem pubKey_success {σ V Pr K PK : Type}
    (PubKeyToProto : Option K → PK × Option GoError)
    (fmtV : Option (isMessage_Sum V Pr PK) → String)
    (privVal : PrivValidator σ V Pr K) (r : Option PubKeyRequest) (chainID : String) (s : σ)
    (k : Option K) (pk : PK)
    (hc : PubKeyRequest.GetChainId r = chainID)
    (hk : (privVal.GetPubKey s).1 = (k, none))
    (hpk : PubKeyToProto k = (pk, none)) :
    DefaultValidationRequestHandler PubKeyToProto fmtV privVal
        { Sum := some (.Message_PubKeyRequest r) } chainID s =
      .returns
        { Sum := some (.Message_PubKeyResponse (some { PubKey := some pk, Error := none })) }
        none (privVal.GetPubKey s).2 := by
  simp [DefaultValidationRequestHandler, hc, hk, hpk, mustWrapMsg]

/-- Witness of C8: the sample signer on chain `"A"` holds the key `7`, which converts to
the protobuf key `7`. -/
theorem pubKey_success_witness :
    PubKeyRequest.GetChainId (some { ChainId := "A" }) = "A" ∧
    (sampleSigner.GetPubKey 0).1 = (some 7, none) ∧
    samplePubKeyToProto (some 7) = (7, none) ∧
    DefaultValidationRequestHandler samplePubKeyToProto sampleFmtV sampleSigner
        { Sum := some (.Message_PubKeyRequest (some { ChainId := "A" })) } "A" 0 =
      .returns
        { Sum := some (.Message_PubKeyResponse (some { PubKey := some 7, Error := none })) }
        none (sampleSigner.GetPubKey 0).2 :=
  ⟨rfl, rfl, rfl,
    pubKey_success samplePubKeyToProto sampleFmtV sampleSigner (some { ChainId := "A" }) "A" 0
      (some 7) 7 rfl rfl rfl⟩

/-! ## Ping and unknown requests -/

/-- C9: a `PingRequest` is answered with the empty `PingResponse` and a nil error, whatever
the signer, its state and the bound chain-id are; the signer's state is left as it was and
no method of the signer is called. -/
theorem ping_response {σ V Pr K PK : Type}
    (PubKeyToProto : Option K → PK × Option GoError)
    (fmtV : Option (isMessage_Sum V Pr PK) → String)
    (privVal : PrivValidator σ V Pr K) (r : Option PingRequest) (chainID : String) (s : σ)
    (log : List SignerCall) :
    DefaultValidationRequestHandler PubKeyToProto fmtV privVal
        { Sum := some (.Message_PingRequest r) } chainID s =
      .returns { Sum := some (.Message_PingResponse (some {})) } none s ∧
    DefaultValidationRequestHandler PubKeyToProto fmtV privVal.traced
        { Sum := some (.Message_PingRequest r) } chainID (s, log) =
      .returns { Sum := some (.Message_PingResponse (some {})) } none (s, log) := by
  constructor <;> simp [DefaultValidationRequestHandler, mustWrapMsg]

/-- C10: a message whose oneof is not set to one of the four request variants (it is unset,
or set to a response variant) makes the handler fail: it returns the empty message and a
non-nil error, the signer's state is left as it was and no method of the signer is called. -/
theorem unknown_request_fails {σ V Pr K PK : Type}
    (PubKeyToProto : Option K → PK × Option GoError)
    (fmtV : Option (isMessage_Sum V Pr PK) → String)
    (privVal : PrivValidator σ V Pr K) (req : Message V Pr PK) (chainID : String) (s : σ)
    (log : List SignerCall)
    (h : isServedRequest req.Sum = false) :
    DefaultValidationRequestHandler PubKeyToProto fmtV privVal req chainID s =
      .returns { Sum := none } (some (unknownMsgErrorf (fmtV req.Sum))) s ∧
    DefaultValidationRequestHandler PubKeyToProto fmtV privVal.traced req chainID (s, log) =
      .returns { Sum := none } (some (unknownMsgErrorf (fmtV req.Sum))) (s, log) := by
  rcases req with ⟨_ | sum⟩
  · constructor <;> simp [DefaultValidationRequestHandler]
  · cases sum <;> simp only [isServedRequest, Bool.true_eq_false, reduceCtorEq] at h <;>
      (constructor <;> simp [DefaultValidationRequestHandler])

/-- Witness of C10: a message carrying a `PingResponse` is not a request. -/
theorem unknown_request_fails_witness :
    isServedRequest
        (({ Sum := some (.Message_PingResponse (some {})) } :
          Message SampleVote SampleProposal Nat).Sum) = false ∧
    DefaultValidationRequestHandler samplePubKeyToProto sampleFmtV sampleSigner
        { Sum := some (.Message_PingResponse (some {})) } "A" 0 =
      .returns { Sum := none }
        (some (unknownMsgErrorf (sampleFmtV (some (.Message_PingResponse (some {})))))) 0 ∧
    DefaultValidationRequestHandler samplePubKeyToProto sampleFmtV sampleSigner.traced
        { Sum := some (.Message_PingResponse (some {})) } "A" (0, []) =
      .returns { Sum := none }
        (some (unknownMsgErrorf (sampleFmtV (some (.Message_PingResponse (some {}))))))
        (0, []) :=
  ⟨rfl,
    unknown_request_fails samplePubKeyToProto sampleFmtV sampleSigner
      { Sum := some (.Message_PingResponse (some {})) } "A" 0 [] rfl⟩

/-! ## Frame and dependence -/

/-- C16: on a `PubKeyRequest`, `SignVoteRequest` or `SignProposalRequest` whose chain-id
differs from the bound chain-id the handler returns without calling `GetPubKey`, `SignVote`
or `SignProposal`: the call log of the signer is as it was and so is the signer's state.
The vote and the proposal of the request are written only by `SignVote` and `SignProposal`,
so they are left as they were. -/
theorem chain_check_before_signer {σ V Pr K PK : Type}
    (PubKeyToProto : Option K → PK × Option GoError)
    (fmtV : Option (isMessage_Sum V Pr PK) → String)
    (privVal : PrivValidator σ V Pr K) (req : Message V Pr PK) (chainID : String) (s : σ)
    (log : List SignerCall)
    (h : chainMismatch req chainID) :
    ∃ res err,
      DefaultValidationRequestHandler PubKeyToProto fmtV privVal req chainID s =
        .returns res err s ∧
      DefaultValidationRequestHandler PubKeyToProto fmtV privVal.traced req chainID (s, log) =
        .returns res err (s, log) := by
  rcases req with ⟨_ | sum⟩
  · simp [chainMismatch] at h
  · cases sum with
    | Message_PubKeyRequest r =>
      have hc : PubKeyRequest.GetChainId r ≠ chainID := by simpa [chainMismatch] using h
      exact ⟨_, _, by simp [DefaultValidationRequestHandler, hc]; exact ⟨rfl, rfl⟩,
        by simp [DefaultValidationRequestHandler, hc]⟩
    | Message_SignVoteRequest r =>
      cases r with
      | none => simp [chainMismatch] at h
      | some m =>
        have hc : m.ChainId ≠ chainID := by simpa [chainMismatch] using h
        exact ⟨_, _, by simp [DefaultValidationRequestHandler, hc]; exact ⟨rfl, rfl⟩,
          by simp [DefaultValidationRequestHandler, hc]⟩
    | Message_SignProposalRequest r =>
      have hc : SignProposalRequest.GetChainId r ≠ chainID := by
        simpa [chainMismatch] using h
      exact ⟨_, _, by simp [DefaultValidationRequestHandler, hc]; exact ⟨rfl, rfl⟩,
        by simp [DefaultValidationRequestHandler, hc]⟩
    | Message_PingRequest r => simp [chainMismatch] at h
    | Message_PubKeyResponse r => simp [chainMismatch] at h
    | Message_SignedVoteResponse r => simp [chainMismatch] at h
    | Message_SignedProposalResponse r => simp [chainMismatch] at h
    | Message_PingResponse r => simp [chainMismatch] at h

/-- Witness of C16: the sample signer, with one earlier call in its log, is bound to chain
`"A"` and receives the sample vote for chain `"B"`. -/
theorem chain_check_before_signer_witness :
    chainMismatch
        ({ Sum := some (.Message_SignVoteRequest (some { sampleVoteRequest with ChainId := "B" })) } :
          Message SampleVote SampleProposal Nat) "A" ∧
    ∃ res err,
      DefaultValidationRequestHandler samplePubKeyToProto sampleFmtV sampleSigner
          { Sum := some (.Message_SignVoteRequest (some { sampleVoteRequest with ChainId := "B" })) }
          "A" 4 =
        .returns res err 4 ∧
      DefaultValidationRequestHandler samplePubKeyToProto sampleFmtV sampleSigner.traced
          { Sum := some (.Message_SignVoteRequest (some { sampleVoteRequest with ChainId := "B" })) }
          "A" (4, [SignerCall.GetPubKey]) =
        .returns res err (4, [SignerCall.GetPubKey]) :=
  ⟨by simp [chainMismatch, sampleVoteRequest],
    chain_check_before_signer samplePubKeyToProto sampleFmtV sampleSigner
      { Sum := some (.Message_SignVoteRequest (some { sampleVoteRequest with ChainId := "B" })) }
      "A" 4 [SignerCall.GetPubKey] (by simp [chainMismatch, sampleVoteRequest])⟩

/-- Counterexample to C17: the sample signer and the stale-key signer return the same key
`7`, the first with a nil error and the second with an error. On the same chain-matching
`PubKeyRequest` the handler gives the same response for both, but it returns a nil error for
the first and the signer's error for the second: the results are not identical. -/
theorem pubKey_returned_error_depends_on_signer_error :
    (sampleSigner.GetPubKey 0).1.1 = (staleKeySigner.GetPubKey 0).1.1 ∧
    (sampleSigner.GetPubKey 0).1.2 = none ∧
    (staleKeySigner.GetPubKey 0).1.2 = some ⟨"key may be stale"⟩ ∧
    DefaultValidationRequestHandler samplePubKeyToProto sampleFmtV sampleSigner
        { Sum := some (.Message_PubKeyRequest (some { ChainId := "A" })) } "A" 0 =
      .returns
        { Sum := some (.Message_PubKeyResponse (some { PubKey := some 7, Error := none })) }
        none 0 ∧
    DefaultValidationRequestHandler samplePubKeyToProto sampleFmtV staleKeySigner
        { Sum := some (.Message_PubKeyRequest (some { ChainId := "A" })) } "A" 0 =
      .returns
        { Sum := some (.Message_PubKeyResponse (some { PubKey := some 7, Error := none })) }
        (some ⟨"key may be stale"⟩) 0 ∧
    DefaultValidationRequestHandler samplePubKeyToProto sampleFmtV sampleSigner
        { Sum := some (.Message_PubKeyRequest (some { ChainId := "A" })) } "A" 0 ≠
      DefaultValidationRequestHandler samplePubKeyToProto sampleFmtV staleKeySigner
        { Sum := some (.Message_PubKeyRequest (some { ChainId := "A" })) } "A" 0 := by
  refine ⟨rfl, rfl, rfl, by decide, by decide, by decide⟩

/-- C17, amended: on a chain-matching `PubKeyRequest`, two signers that return the same key
value get the same response, whatever errors their `GetPubKey` returns. The returned error is
the conversion's error when the key does not convert, the same for both; when the key
converts, it is the error `GetPubKey` returned, so it is nil for the signer without an error
and non-nil for the one with an error. No `PubKeyRequest`, chain-matching or not, is answered
with a `PubKeyResponse` whose `Error` is non-nil. -/
theorem pubKey_result_dependence {σ V Pr K PK : Type}
    (PubKeyToProto : Option K → PK × Option GoError)
    (fmtV : Option (isMessage_Sum V Pr PK) → String)
    (pv1 pv2 : PrivValidator σ V Pr K) (r r0 : Option PubKeyRequest) (chainID c0 : String)
    (s1 s2 s0 : σ) :
    (PubKeyRequest.GetChainId r = chainID →
      (pv1.GetPubKey s1).1.1 = (pv2.GetPubKey s2).1.1 →
      ∃ res e1 e2,
        DefaultValidationRequestHandler PubKeyToProto fmtV pv1
            { Sum := some (.Message_PubKeyRequest r) } chainID s1 =
          .returns res e1 (pv1.GetPubKey s1).2 ∧
        DefaultValidationRequestHandler PubKeyToProto fmtV pv2
            { Sum := some (.Message_PubKeyRequest r) } chainID s2 =
          .returns res e2 (pv2.GetPubKey s2).2 ∧
        ((PubKeyToProto (pv1.GetPubKey s1).1.1).2 ≠ none →
          e1 = (PubKeyToProto (pv1.GetPubKey s1).1.1).2 ∧ e2 = e1) ∧
        ((PubKeyToProto (pv1.GetPubKey s1).1.1).2 = none →
          e1 = (pv1.GetPubKey s1).1.2 ∧ e2 = (pv2.GetPubKey s2).1.2)) ∧
    (∀ res err s3 m,
      DefaultValidationRequestHandler PubKeyToProto fmtV pv1
          { Sum := some (.Message_PubKeyRequest r0) } c0 s0 =
        .returns res err s3 →
      res.Sum = some (.Message_PubKeyResponse (some m)) → m.Error = none) := by
  constructor
  · intro hc hk
    by_cases hconv : (PubKeyToProto (pv1.GetPubKey s1).1.1).2 = none
    · refine ⟨mustWrapMsg (.PubKeyResponse
          { PubKey := some (PubKeyToProto (pv1.GetPubKey s1).1.1).1, Error := none }),
        (pv1.GetPubKey s1).1.2, (pv2.GetPubKey s2).1.2, ?_, ?_, ?_, ?_⟩
      · simp only [DefaultValidationRequestHandler, hc, hconv, ne_eq, not_true_eq_false,
          if_false]
      · simp only [DefaultValidationRequestHandler, hc, ← hk, hconv, ne_eq,
          not_true_eq_false, if_false]
      · intro h
        exact absurd hconv h
      · intro _
        exact ⟨rfl, rfl⟩
    · refine ⟨{ Sum := none }, (PubKeyToProto (pv1.GetPubKey s1).1.1).2,
        (PubKeyToProto (pv1.GetPubKey s1).1.1).2, ?_, ?_, ?_, ?_⟩
      · simp [DefaultValidationRequestHandler, hc, hconv]
      · simp [DefaultValidationRequestHandler, hc, ← hk, hconv]
      · intro _
        exact ⟨rfl, rfl⟩
      · intro h
        exact absurd h hconv
  · intro res err s3 m h hres
    by_cases hc : PubKeyRequest.GetChainId r0 = c0
    · simp only [DefaultValidationRequestHandler, hc, ne_eq, not_true_eq_false,
        if_false] at h
      split_ifs at h with h1
      · simp only [Outcome.returns.injEq] at h
        rw [← h.1] at hres
        simp [h1, mustWrapMsg] at hres
        rw [← hres]
      · simp only [Outcome.returns.injEq] at h
        rw [← h.1] at hres
        simp at hres
    · simp only [DefaultValidationRequestHandler, hc, ne_eq, not_false_eq_true, if_true,
        Outcome.returns.injEq] at h
      rw [← h.1] at hres
      simp [mustWrapMsg] at hres

/-- Witness of C17, amended: the sample signer and the stale-key signer on chain `"A"`;
both return the key `7`, which converts. -/
theorem pubKey_result_dependence_witness :
    (PubKeyRequest.GetChainId (some { ChainId := "A" }) = "A" ∧
      (sampleSigner.GetPubKey 0).1.1 = (staleKeySigner.GetPubKey 0).1.1 ∧
      ∃ res e1 e2,
        DefaultValidationRequestHandler samplePubKeyToProto sampleFmtV sampleSigner
            { Sum := some (.Message_PubKeyRequest (some { ChainId := "A" })) } "A" 0 =
          .returns res e1 (sampleSigner.GetPubKey 0).2 ∧
        DefaultValidationRequestHandler samplePubKeyToProto sampleFmtV staleKeySigner
            { Sum := some (.Message_PubKeyRequest (some { ChainId := "A" })) } "A" 0 =
          .returns res e2 (staleKeySigner.GetPubKey 0).2 ∧
        ((samplePubKeyToProto (sampleSigner.GetPubKey 0).1.1).2 ≠ none →
          e1 = (samplePubKeyToProto (sampleSigner.GetPubKey 0).1.1).2 ∧ e2 = e1) ∧
        ((samplePubKeyToProto (sampleSigner.GetPubKey 0).1.1).2 = none →
          e1 = (sampleSigner.GetPubKey 0).1.2 ∧ e2 = (staleKeySigner.GetPubKey 0).1.2)) ∧
    (DefaultValidationRequestHandler samplePubKeyToProto sampleFmtV sampleSigner
          { Sum := some (.Message_PubKeyRequest (some { ChainId := "A" })) } "A" 0 =
        .returns
          { Sum := some (.Message_PubKeyResponse (some { PubKey := some 7, Error := none })) }
          none 0 ∧
      ({ PubKey := some 7, Error := none } : PubKeyResponse Nat).Error = none) :=
  ⟨⟨rfl, rfl,
      (pubKey_result_dependence samplePubKeyToProto sampleFmtV sampleSigner staleKeySigner
        (some { ChainId := "A" }) (some { ChainId := "A" }) "A" "A" 0 0 0).1 rfl rfl⟩,
    ⟨by decide,
      (pubKey_result_dependence samplePubKeyToProto sampleFmtV sampleSigner staleKeySigner
        (some { ChainId := "A" }) (some { ChainId := "A" }) "A" "A" 0 0 0).2
        { Sum := some (.Message_PubKeyResponse (some { PubKey := some 7, Error := none })) }
        none 0 { PubKey := some 7, Error := none } (by decide) rfl⟩⟩

end privval

namespace types

/-! ## Validator-set arithmetic: the diff algorithm -/

/-- Membership after the removals of step 5. -/
theorem mem_foldl_applyRemoval (rs vs : List Validator) (x : Validator) :
    x ∈ rs.foldl applyRemoval vs ↔ x ∈ vs ∧ ∀ r ∈ rs, x.Address ≠ r.Address := by
  induction rs generalizing vs with
  | nil => simp
  | cons r rs ih =>
    simp only [List.foldl_cons, ih, applyRemoval, List.mem_filter, List.mem_cons,
      forall_eq_or_imp, decide_eq_true_eq]
    tauto

/-- The removals of step 5 keep a sublist. -/
theorem foldl_applyRemoval_sublist (rs vs : List Validator) :
    (rs.foldl applyRemoval vs).Sublist vs := by
  induction rs generalizing vs with
  | nil => simp
  | cons r rs ih =>
    simp only [List.foldl_cons]
    exact (ih _).trans (List.filter_sublist _)

/-- Membership after one upsert. -/
theorem mem_applyUpsert (vs : List Validator) (u x : Validator) :
    x ∈ applyUpsert vs u ↔ x = u ∨ (x ∈ vs ∧ x.Address ≠ u.Address) := by
  unfold applyUpsert
  split_ifs with h
  · simp only [List.any_eq_true, decide_eq_true_eq] at h
    obtain ⟨w, hw, hwa⟩ := h
    simp only [List.mem_map]
    constructor
    · rintro ⟨v, hv, rfl⟩
      by_cases hva : v.Address = u.Address
      · simp [hva]
      · simp only [hva, if_false]
        exact Or.inr ⟨hv, hva⟩
    · rintro (rfl | ⟨hx, hxa⟩)
      · exact ⟨w, hw, by simp [hwa]⟩
      · exact ⟨x, hx, by simp [hxa]⟩
  · simp only [List.any_eq_true, decide_eq_true_eq, not_exists, not_and] at h
    simp only [List.mem_append, List.mem_singleton]
    constructor
    · rintro (hx | rfl)
      · exact Or.inr ⟨hx, h x hx⟩
      · exact Or.inl rfl
    · rintro (rfl | ⟨hx, _⟩)
      · exact Or.inr rfl
      · exact Or.inl hx

/-- One upsert keeps the addresses distinct. -/
theorem applyUpsert_nodup (vs : List Validator) (u : Validator)
    (h : (vs.map (fun v => v.Address)).Nodup) :
    ((applyUpsert vs u).map (fun v => v.Address)).Nodup := by
  unfold applyUpsert
  split_ifs with hx
  · have hmap : (vs.map (fun v => if v.Address = u.Address then u else v)).map
        (fun v => v.Address) = vs.map (fun v => v.Address) := by
      rw [List.map_map]
      apply List.map_congr_left
      intro v _
      by_cases hva : v.Address = u.Address <;> simp [hva]
    rw [hmap]
    exact h
  · simp only [List.any_eq_true, decide_eq_true_eq, not_exists, not_and] at hx
    rw [List.map_append, List.nodup_append]
    refine ⟨h, by simp, ?_⟩
    intro a ha hb
    simp only [List.map_cons, List.map_nil, List.mem_singleton] at hb
    simp only [List.mem_map] at ha
    obtain ⟨v, hv, rfl⟩ := ha
    exact hx v hv hb

/-- The upserts of step 5 keep the addresses distinct. -/
theorem foldl_applyUpsert_nodup (us vs : List Validator)
    (h : (vs.map (fun v => v.Address)).Nodup) :
    ((us.foldl applyUpsert vs).map (fun v => v.Address)).Nodup := by
  induction us generalizing vs with
  | nil => simpa using h
  | cons u us ih =>
    simp only [List.foldl_cons]
    exact ih _ (applyUpsert_nodup vs u h)

/-- Membership after the upserts of step 5, for upserts of distinct addresses. -/
theorem mem_foldl_applyUpsert (us vs : List Validator) (x : Validator)
    (h : (us.map (fun v => v.Address)).Nodup) :
    x ∈ us.foldl applyUpsert vs ↔
      x ∈ us ∨ (x ∈ vs ∧ ∀ u ∈ us, x.Address ≠ u.Address) := by
  induction us generalizing vs with
  | nil => simp
  | cons u us ih =>
    simp only [List.map_cons, List.nodup_cons, List.mem_map, not_exists, not_and] at h
    simp only [List.foldl_cons, ih _ h.2, mem_applyUpsert, List.mem_cons, forall_eq_or_imp]
    constructor
    · rintro (hx | ⟨rfl | ⟨hx, hxa⟩, hall⟩)
      · exact Or.inl (Or.inr hx)
      · exact Or.inl (Or.inl rfl)
      · exact Or.inr ⟨hx, hxa, hall⟩
    · rintro ((rfl | hx) | ⟨hx, hxa, hall⟩)
      · refine Or.inr ⟨Or.inl rfl, ?_⟩
        intro w hw hEq
        exact h.1 w hw hEq.symm
      · exact Or.inl hx
      · exact Or.inr ⟨Or.inr ⟨hx, hxa⟩, hall⟩

end types

namespace types

/-- Step 4 leaves the address of an upsert as it is. -/
theorem upsertPriority_address (c : List Validator) (u : Validator) :
    (upsertPriority c u).Address = u.Address := by
  unfold upsertPriority
  split <;> rfl

/-- Step 4 leaves the address and the power of an upsert as they are. -/
theorem upsertPriority_entry (c : List Validator) (u : Validator) :
    (upsertPriority c u).entry = u.entry := by
  unfold upsertPriority
  split <;> rfl

/-- Step 7 leaves the addresses and the powers as they are. -/
theorem rescalePriorities_entries (vs : List Validator) (total : Nat) :
    (rescalePriorities vs total).map Validator.entry = vs.map Validator.entry := by
  simp [rescalePriorities, List.map_map, Function.comp_def, Validator.entry]

/-- The addresses of a list of validators are the first components of its entries. -/
theorem map_address_eq (vs : List Validator) :
    vs.map (fun v => v.Address) = (vs.map Validator.entry).map Prod.fst := by
  simp [List.map_map, Function.comp_def, Validator.entry]

/-- The sum of the powers of a list of validators is the sum of the second components
of its entries. -/
theorem sumVotingPower_eq (vs : List Validator) :
    sumVotingPower vs = ((vs.map Validator.entry).map Prod.snd).sum := by
  simp [sumVotingPower, List.map_map, Function.comp_def, Validator.entry]

/-- The expected members have distinct addresses. -/
theorem expectedValidators_nodup (old diff : List Validator)
    (hold : (old.map (fun v => v.Address)).Nodup)
    (hdiff : (diff.map (fun v => v.Address)).Nodup) :
    ((expectedValidators old diff).map (fun v => v.Address)).Nodup := by
  unfold expectedValidators
  rw [List.map_append, List.nodup_append]
  refine ⟨hold.sublist ((List.filter_sublist _).map _),
    hdiff.sublist ((List.filter_sublist _).map _), ?_⟩
  intro a ha hb
  obtain ⟨v, hv, rfl⟩ := List.mem_map.1 ha
  obtain ⟨d, hd, hEq⟩ := List.mem_map.1 hb
  simp only [List.mem_filter, List.any_eq_true, decide_eq_true_eq, not_exists,
    not_and, decide_not, Bool.not_eq_true', decide_eq_false_iff_not] at hv
  exact hv.2 d (List.mem_filter.1 hd).1 hEq

/-- The expected members of a well-formed set have positive powers. -/
theorem expectedValidators_pos (old diff : List Validator)
    (hpos : ∀ v ∈ old, 0 < v.VotingPower) :
    ∀ v ∈ expectedValidators old diff, 0 < v.VotingPower := by
  intro v hv
  rcases List.mem_append.1 hv with h | h
  · exact hpos v (List.mem_filter.1 h).1
  · simpa using (List.mem_filter.1 h).2

/-- A non-empty list of validators of positive powers has a non-zero total. -/
theorem sumVotingPower_ne_zero (vs : List Validator) (hne : vs ≠ [])
    (hpos : ∀ v ∈ vs, 0 < v.VotingPower) : sumVotingPower vs ≠ 0 := by
  cases vs with
  | nil => exact absurd rfl hne
  | cons v vs =>
    have := hpos v (List.mem_cons_self _ _)
    simp only [sumVotingPower, List.map_cons, List.sum_cons]
    omega

/-- Steps 2 to 5: after the removals and the upserts, the set has the addresses and powers
of the expected members, each once. -/
theorem merged_entries_perm (old diff : List Validator)
    (hold : (old.map (fun v => v.Address)).Nodup)
    (hdiff : (diff.map (fun v => v.Address)).Nodup) :
    ((((diff.filter (fun d => 0 < d.VotingPower)).map (upsertPriority old)).foldl applyUpsert
        ((diff.filter (fun d => d.VotingPower = 0)).foldl applyRemoval old)).map
        Validator.entry).Perm
      ((expectedValidators old diff).map Validator.entry) := by
  have hups : (((diff.filter (fun d => 0 < d.VotingPower)).map (upsertPriority old)).map
      (fun v => v.Address)).Nodup := by
    have : ((diff.filter (fun d => 0 < d.VotingPower)).map (upsertPriority old)).map
        (fun v => v.Address) = (diff.filter (fun d => 0 < d.VotingPower)).map
        (fun v => v.Address) := by
      rw [List.map_map]
      apply List.map_congr_left
      intro u _
      exact upsertPriority_address old u
    rw [this]
    exact hdiff.sublist ((List.filter_sublist _).map _)
  have hafter : (((diff.filter (fun d => d.VotingPower = 0)).foldl applyRemoval old).map
      (fun v => v.Address)).Nodup :=
    hold.sublist ((foldl_applyRemoval_sublist _ _).map _)
  apply (List.perm_ext_iff_of_nodup ?_ ?_).2
  · intro k
    simp only [List.mem_map]
    constructor
    · rintro ⟨x, hx, rfl⟩
      rcases (mem_foldl_applyUpsert _ _ _ hups).1 hx with hxu | ⟨hxa, hall⟩
      · obtain ⟨u, hu, rfl⟩ := List.mem_map.1 hxu
        refine ⟨u, ?_, (upsertPriority_entry old u).symm⟩
        exact List.mem_append_right _ hu
      · obtain ⟨hxo, hrem⟩ := (mem_foldl_applyRemoval _ _ _).1 hxa
        refine ⟨x, List.mem_append_left _ ?_, rfl⟩
        simp only [List.mem_filter, List.any_eq_true, decide_eq_true_eq, not_exists,
          not_and, decide_not, Bool.not_eq_true', decide_eq_false_iff_not]
        refine ⟨hxo, ?_⟩
        intro d hd hda
        by_cases hp : d.VotingPower = 0
        · exact hrem d (List.mem_filter.2 ⟨hd, by simpa using hp⟩) hda.symm
        · have hmem : upsertPriority old d ∈
              (diff.filter (fun d => 0 < d.VotingPower)).map (upsertPriority old) :=
            List.mem_map.2 ⟨d, List.mem_filter.2 ⟨hd, by simpa using Nat.pos_of_ne_zero hp⟩,
              rfl⟩
          exact hall _ hmem (by rw [upsertPriority_address]; exact hda.symm)
    · rintro ⟨y, hy, rfl⟩
      rcases List.mem_append.1 hy with hyo | hyu
      · simp only [List.mem_filter, List.any_eq_true, decide_eq_true_eq, not_exists,
          not_and, decide_not, Bool.not_eq_true', decide_eq_false_iff_not] at hyo
        refine ⟨y, (mem_foldl_applyUpsert _ _ _ hups).2 (Or.inr ⟨?_, ?_⟩), rfl⟩
        · refine (mem_foldl_applyRemoval _ _ _).2 ⟨hyo.1, ?_⟩
          intro r hr hEq
          exact hyo.2 r (List.mem_filter.1 hr).1 hEq.symm
        · intro u hu hEq
          obtain ⟨d, hd, rfl⟩ := List.mem_map.1 hu
          rw [upsertPriority_address] at hEq
          exact hyo.2 d (List.mem_filter.1 hd).1 hEq.symm
      · refine ⟨upsertPriority old y, (mem_foldl_applyUpsert _ _ _ hups).2 (Or.inl ?_),
          upsertPriority_entry old y⟩
        exact List.mem_map.2 ⟨y, hyu, rfl⟩
  · apply List.Nodup.of_map Prod.fst
    rw [← map_address_eq]
    exact foldl_applyUpsert_nodup _ _ hafter
  · apply List.Nodup.of_map Prod.fst
    rw [← map_address_eq]
    exact expectedValidators_nodup old diff hold hdiff

end types

namespace types

/-- Storing in the order of addresses yields sorted addresses. -/
theorem insertionSort_addresses_sorted (vs : List Validator) :
    ((vs.insertionSort (fun a b => a.Address ≤ b.Address)).map
      (fun v => v.Address)).Sorted (fun a b => a ≤ b) := by
  haveI : IsTotal Validator (fun a b => a.Address ≤ b.Address) :=
    ⟨fun a b => le_total a.Address b.Address⟩
  haveI : IsTrans Validator (fun a b => a.Address ≤ b.Address) :=
    ⟨fun _ _ _ hab hbc => le_trans hab hbc⟩
  have h := List.sorted_insertionSort (fun a b : Validator => a.Address ≤ b.Address) vs
  unfold List.Sorted at h ⊢
  rw [List.pairwise_map]
  exact h

/-- The diff algorithm on a valid diff: it succeeds, the resulting set has the addresses and
powers of the expected members, it is stored in the order of addresses, and its cached total
is the sum of the expected powers. -/
theorem updateWithChangeSet_valid (vals : ValidatorSet) (diff : List Validator)
    (hold : (vals.Validators.map (fun v => v.Address)).Nodup)
    (hdiff : (diff.map (fun v => v.Address)).Nodup)
    (hrem : ∀ d ∈ diff, d.VotingPower = 0 → ∃ v ∈ vals.Validators, v.Address = d.Address)
    (hpos : sumVotingPower (expectedValidators vals.Validators diff) ≠ 0) :
    (vals.UpdateWithChangeSet diff).1 = none ∧
    ((vals.UpdateWithChangeSet diff).2.Validators.map Validator.entry).Perm
      ((expectedValidators vals.Validators diff).map Validator.entry) ∧
    ((vals.UpdateWithChangeSet diff).2.Validators.map (fun v => v.Address)).Sorted
      (fun a b => a ≤ b) ∧
    (vals.UpdateWithChangeSet diff).2.totalVotingPower =
      sumVotingPower (expectedValidators vals.Validators diff) := by
  have hperm := merged_entries_perm vals.Validators diff hold hdiff
  have hsort := List.perm_insertionSort (fun a b : Validator => a.Address ≤ b.Address)
    (((diff.filter (fun d => 0 < d.VotingPower)).map (upsertPriority vals.Validators)).foldl
      applyUpsert ((diff.filter (fun d => d.VotingPower = 0)).foldl applyRemoval
        vals.Validators))
  have hperm2 := (hsort.map Validator.entry).trans hperm
  have hsum : sumVotingPower
      ((((diff.filter (fun d => 0 < d.VotingPower)).map (upsertPriority vals.Validators)).foldl
        applyUpsert ((diff.filter (fun d => d.VotingPower = 0)).foldl applyRemoval
          vals.Validators)).insertionSort (fun a b => a.Address ≤ b.Address)) =
      sumVotingPower (expectedValidators vals.Validators diff) := by
    rw [sumVotingPower_eq, sumVotingPower_eq]
    exact (hperm2.map Prod.snd).sum_eq
  have hall : (diff.filter (fun d => d.VotingPower = 0)).all
      (fun r => vals.Validators.any (fun v => v.Address = r.Address)) = true := by
    simp only [List.all_eq_true, List.mem_filter, List.any_eq_true, decide_eq_true_eq]
    rintro r ⟨hr, h0⟩
    exact hrem r hr h0
  have hval : vals.UpdateWithChangeSet diff =
      (none,
        { Validators := rescalePriorities
            ((((diff.filter (fun d => 0 < d.VotingPower)).map
              (upsertPriority vals.Validators)).foldl applyUpsert
              ((diff.filter (fun d => d.VotingPower = 0)).foldl applyRemoval
                vals.Validators)).insertionSort (fun a b => a.Address ≤ b.Address))
            (sumVotingPower (expectedValidators vals.Validators diff)),
          totalVotingPower := sumVotingPower (expectedValidators vals.Validators diff) }) := by
    unfold ValidatorSet.UpdateWithChangeSet
    simp only [hdiff, not_true_eq_false, if_false, hall, hsum, hpos]
  rw [hval]
  refine ⟨rfl, ?_, ?_, rfl⟩
  · show (List.map Validator.entry (rescalePriorities _ _)).Perm _
    rw [rescalePriorities_entries]
    exact hperm2
  · show (List.map (fun v => v.Address) (rescalePriorities _ _)).Sorted _
    rw [map_address_eq, rescalePriorities_entries, ← map_address_eq]
    exact insertionSort_addresses_sorted _

end types

namespace types

/-- C12: when the change set holds a removal (power `0`) of an address that is not in the
set, `UpdateWithChangeSet` returns an error and the set is as it was: the same validators,
powers and total voting power. -/
theorem updateWithChangeSet_missing_removal (vals : ValidatorSet) (diff : List Validator)
    (r : Validator) (hr : r ∈ diff) (h0 : r.VotingPower = 0)
    (hn : ∀ v ∈ vals.Validators, v.Address ≠ r.Address) :
    (vals.UpdateWithChangeSet diff).1 ≠ none ∧ (vals.UpdateWithChangeSet diff).2 = vals := by
  unfold ValidatorSet.UpdateWithChangeSet
  by_cases hd : (diff.map (fun d => d.Address)).Nodup
  · have hall : ¬ (diff.filter (fun d => d.VotingPower = 0)).all
        (fun r => vals.Validators.any (fun v => v.Address = r.Address)) = true := by
      simp only [List.all_eq_true, List.mem_filter, List.any_eq_true, decide_eq_true_eq,
        not_forall]
      exact ⟨r, ⟨hr, h0⟩, fun ⟨v, hv, hEq⟩ => hn v hv hEq⟩
    simp [hd, hall]
  · simp [hd]

/-- C13: for a well-formed set and a valid change set (distinct addresses, removals only of
present addresses, a non-empty result), `UpdateWithChangeSet` succeeds, and so does building
a fresh set from the expected validators, listed in any order; the two sets have the same
size, the same total voting power and the same address at every index. -/
theorem updateWithChangeSet_matches_fresh_set (vals : ValidatorSet)
    (diff e : List Validator)
    (hwf : vals.WellFormed)
    (hdiff : (diff.map (fun d => d.Address)).Nodup)
    (hrem : ∀ d ∈ diff, d.VotingPower = 0 → ∃ v ∈ vals.Validators, v.Address = d.Address)
    (hne : expectedValidators vals.Validators diff ≠ [])
    (he : e.Perm (expectedValidators vals.Validators diff)) :
    (vals.UpdateWithChangeSet diff).1 = none ∧
    (NewValidatorSet e).1 = none ∧
    (vals.UpdateWithChangeSet diff).2.Size = (NewValidatorSet e).2.Size ∧
    (vals.UpdateWithChangeSet diff).2.TotalVotingPower =
      (NewValidatorSet e).2.TotalVotingPower ∧
    (vals.UpdateWithChangeSet diff).2.Validators.map (fun v => v.Address) =
      (NewValidatorSet e).2.Validators.map (fun v => v.Address) := by
  have hposx := expectedValidators_pos vals.Validators diff hwf.2
  have hsum := sumVotingPower_ne_zero _ hne hposx
  obtain ⟨c1, c2, c3, c4⟩ := updateWithChangeSet_valid vals diff hwf.1 hdiff hrem hsum
  -- the fresh set
  have hepos : ∀ v ∈ e, 0 < v.VotingPower := fun v hv => hposx v (he.subset hv)
  have hexp : expectedValidators [] e = e := by
    simp only [expectedValidators, List.filter_nil, List.nil_append]
    exact List.filter_eq_self.2 (fun v hv => by simpa using hepos v hv)
  have henodup : (e.map (fun v => v.Address)).Nodup :=
    ((he.map _).nodup_iff).2 (expectedValidators_nodup _ _ hwf.1 hdiff)
  have hesum : sumVotingPower e = sumVotingPower (expectedValidators vals.Validators diff) := by
    rw [sumVotingPower_eq, sumVotingPower_eq]
    exact ((he.map Validator.entry).map Prod.snd).sum_eq
  obtain ⟨f1, f2, f3, f4⟩ := updateWithChangeSet_valid
    { Validators := [], totalVotingPower := 0 } e (by simp) henodup
    (fun d hd h0 => absurd h0 (Nat.pos_iff_ne_zero.1 (hepos d hd)))
    (by rw [hexp, hesum]; exact hsum)
  simp only [hexp] at f2 f4
  have hentries : ((vals.UpdateWithChangeSet diff).2.Validators.map Validator.entry).Perm
      ((NewValidatorSet e).2.Validators.map Validator.entry) :=
    c2.trans ((he.map Validator.entry).symm.trans f2.symm)
  refine ⟨c1, f1, ?_, ?_, ?_⟩
  · have := hentries.length_eq
    simpa [ValidatorSet.Size] using this
  · simp only [ValidatorSet.TotalVotingPower]
    rw [c4]
    exact (hesum.symm.trans f4.symm)
  · have hp : ((vals.UpdateWithChangeSet diff).2.Validators.map (fun v => v.Address)).Perm
        ((NewValidatorSet e).2.Validators.map (fun v => v.Address)) := by
      rw [map_address_eq, map_address_eq]
      exact hentries.map Prod.fst
    exact List.eq_of_perm_of_sorted hp c3 f3

end types

namespace state

open types

/-- Counterexample to C11, against the checks of section 4.2: two updates of the same key,
both with a non-negative power and a whitelisted key type, are rejected as duplicates. -/
theorem validateValidatorUpdates_rejects_duplicates :
    (∀ u ∈ [({ PubKey := samplePubKey1, Power := 10 } : abci.ValidatorUpdate),
        { PubKey := samplePubKey1, Power := 20 }],
      0 ≤ u.Power ∧ u.PubKey.KeyType ∈ defaultValidatorParams.PubKeyTypes) ∧
    ValidateValidatorUpdates
        [{ PubKey := samplePubKey1, Power := 10 }, { PubKey := samplePubKey1, Power := 20 }]
        defaultValidatorParams =
      some Err.ErrDuplicateValidator := by
  decide

/-- C11, amended: `ValidateValidatorUpdates` rejects, with `ErrNegativePower`, every list
that holds an entry with `Power < 0`; and it accepts every list whose entries all have
`Power ≥ 0` and a key type in the whitelist and whose addresses are pairwise distinct. -/
theorem validateValidatorUpdates_contract (abciUpdates : List abci.ValidatorUpdate)
    (params : ValidatorParams) :
    ((∃ u ∈ abciUpdates, u.Power < 0) →
      ValidateValidatorUpdates abciUpdates params = some Err.ErrNegativePower) ∧
    ((∀ u ∈ abciUpdates, 0 ≤ u.Power ∧ u.PubKey.KeyType ∈ params.PubKeyTypes) →
      (abciUpdates.map (fun u => u.PubKey.Address)).Nodup →
      ValidateValidatorUpdates abciUpdates params = none) := by
  constructor
  · rintro ⟨u, hu, hneg⟩
    have h : abciUpdates.any (fun u => decide (u.Power < 0)) = true := by
      simp only [List.any_eq_true, decide_eq_true_eq]
      exact ⟨u, hu, hneg⟩
    simp [ValidateValidatorUpdates, h]
  · intro hall hnodup
    have h1 : abciUpdates.any (fun u => decide (u.Power < 0)) = false := by
      simp only [List.any_eq_false, decide_eq_true_eq, not_lt]
      exact fun u hu => (hall u hu).1
    have h2 : abciUpdates.any
        (fun u => decide (¬ u.PubKey.KeyType ∈ params.PubKeyTypes)) = false := by
      simp only [List.any_eq_false, decide_eq_true_eq, not_not]
      exact fun u hu => (hall u hu).2
    simp only [ValidateValidatorUpdates, h1, h2, hnodup, Bool.false_eq_true, if_false,
      not_true_eq_false]

/-- Witness of C11, amended: the test's update with power `-100` is rejected, and its update
with power `0` beside one with power `20` of another key is accepted. -/
theorem validateValidatorUpdates_contract_witness :
    ((∃ u ∈ [({ PubKey := samplePubKey2, Power := -100 } : abci.ValidatorUpdate)],
        u.Power < 0) ∧
      ValidateValidatorUpdates [{ PubKey := samplePubKey2, Power := -100 }]
        defaultValidatorParams = some Err.ErrNegativePower) ∧
    ((∀ u ∈ [({ PubKey := samplePubKey2, Power := 0 } : abci.ValidatorUpdate),
          { PubKey := samplePubKey1, Power := 20 }],
        0 ≤ u.Power ∧ u.PubKey.KeyType ∈ defaultValidatorParams.PubKeyTypes) ∧
      ([({ PubKey := samplePubKey2, Power := 0 } : abci.ValidatorUpdate),
          { PubKey := samplePubKey1, Power := 20 }].map
        (fun u => u.PubKey.Address)).Nodup ∧
      ValidateValidatorUpdates
          [{ PubKey := samplePubKey2, Power := 0 }, { PubKey := samplePubKey1, Power := 20 }]
          defaultValidatorParams = none) :=
  ⟨⟨by decide,
      (validateValidatorUpdates_contract [{ PubKey := samplePubKey2, Power := -100 }]
        defaultValidatorParams).1 (by decide)⟩,
    ⟨by decide, by decide,
      (validateValidatorUpdates_contract
        [{ PubKey := samplePubKey2, Power := 0 }, { PubKey := samplePubKey1, Power := 20 }]
        defaultValidatorParams).2 (by decide) (by decide)⟩⟩

/-- Witness of C12: the test's case of removing a validator that is not in the set. -/
theorem updateWithChangeSet_missing_removal_witness :
    NewValidator samplePubKey2 0 ∈ [NewValidator samplePubKey2 0] ∧
    (NewValidator samplePubKey2 0).VotingPower = 0 ∧
    (∀ v ∈ sampleSet1.Validators, v.Address ≠ (NewValidator samplePubKey2 0).Address) ∧
    (sampleSet1.UpdateWithChangeSet [NewValidator samplePubKey2 0]).1 ≠ none ∧
    (sampleSet1.UpdateWithChangeSet [NewValidator samplePubKey2 0]).2 = sampleSet1 :=
  ⟨by decide, rfl, by decide,
    updateWithChangeSet_missing_removal sampleSet1 [NewValidator samplePubKey2 0]
      (NewValidator samplePubKey2 0) (by decide) rfl (by decide)⟩

/-- Witness of C13: the test's case of adding `val2` to the set of `val1`; the fresh set
is built from `val2, val1`, the reverse of the order in which the expected members arise. -/
theorem updateWithChangeSet_matches_fresh_set_witness :
    sampleSet1.WellFormed ∧
    ([sampleVal2].map (fun d => d.Address)).Nodup ∧
    (∀ d ∈ [sampleVal2], d.VotingPower = 0 →
      ∃ v ∈ sampleSet1.Validators, v.Address = d.Address) ∧
    expectedValidators sampleSet1.Validators [sampleVal2] ≠ [] ∧
    [sampleVal2, sampleVal1].Perm (expectedValidators sampleSet1.Validators [sampleVal2]) ∧
    (sampleSet1.UpdateWithChangeSet [sampleVal2]).1 = none ∧
    (NewValidatorSet [sampleVal2, sampleVal1]).1 = none ∧
    (sampleSet1.UpdateWithChangeSet [sampleVal2]).2.Size =
      (NewValidatorSet [sampleVal2, sampleVal1]).2.Size ∧
    (sampleSet1.UpdateWithChangeSet [sampleVal2]).2.TotalVotingPower =
      (NewValidatorSet [sampleVal2, sampleVal1]).2.TotalVotingPower ∧
    (sampleSet1.UpdateWithChangeSet [sampleVal2]).2.Validators.map (fun v => v.Address) =
      (NewValidatorSet [sampleVal2, sampleVal1]).2.Validators.map (fun v => v.Address) :=
  ⟨⟨by decide, by decide⟩, by decide, by decide, by decide, List.Perm.swap _ _ _,
    updateWithChangeSet_matches_fresh_set sampleSet1 [sampleVal2] [sampleVal2, sampleVal1]
      ⟨by decide, by decide⟩ (by decide) (by decide) (by decide) (List.Perm.swap _ _ _)⟩

end state

namespace types

/-- One increment of the priorities leaves the addresses as they are. -/
theorem incrementProposerPriority_addresses (vals : ValidatorSet) :
    vals.IncrementProposerPriority.Validators.map (fun v => v.Address) =
      vals.Validators.map (fun v => v.Address) := by
  unfold ValidatorSet.IncrementProposerPriority
  dsimp only
  split <;> simp [rescalePriorities, List.map_map, Function.comp_def]

/-- A diff of distinct addresses that removes every validator of the set, and adds none,
is refused with `ErrValidatorNotFound` or with `ErrEmptyValidatorSet`, and with the latter
when each of its entries names a validator of the set; the set is left as it was. -/
theorem updateWithChangeSet_removing_all_error (vals : ValidatorSet)
    (diff : List Validator)
    (hnodup : (diff.map (fun d => d.Address)).Nodup)
    (h0 : ∀ d ∈ diff, d.VotingPower = 0)
    (hcover : ∀ v ∈ vals.Validators, ∃ d ∈ diff, d.Address = v.Address) :
    ((vals.UpdateWithChangeSet diff).1 = some Err.ErrValidatorNotFound ∨
      (vals.UpdateWithChangeSet diff).1 = some Err.ErrEmptyValidatorSet) ∧
    ((∀ d ∈ diff, ∃ v ∈ vals.Validators, v.Address = d.Address) →
      (vals.UpdateWithChangeSet diff).1 = some Err.ErrEmptyValidatorSet) ∧
    (vals.UpdateWithChangeSet diff).2 = vals := by
  have hups : diff.filter (fun d => decide (0 < d.VotingPower)) = [] := by
    rw [List.filter_eq_nil_iff]
    intro d hd
    simp [h0 d hd]
  have hrem : diff.filter (fun d => decide (d.VotingPower = 0)) = diff := by
    rw [List.filter_eq_self]
    intro d hd
    simp [h0 d hd]
  have hafter : diff.foldl applyRemoval vals.Validators = [] := by
    rw [List.eq_nil_iff_forall_not_mem]
    intro x hx
    obtain ⟨hxv, hall⟩ := (mem_foldl_applyRemoval _ _ _).1 hx
    obtain ⟨d, hd, hEq⟩ := hcover x hxv
    exact hall d hd hEq.symm
  by_cases hall : diff.all
      (fun r => vals.Validators.any (fun v => decide (v.Address = r.Address))) = true
  · have hval : vals.UpdateWithChangeSet diff = (some Err.ErrEmptyValidatorSet, vals) := by
      unfold ValidatorSet.UpdateWithChangeSet
      simp only [hnodup, not_true_eq_false, if_false, hrem, hall, hups, List.map_nil,
        List.foldl_nil, hafter, List.insertionSort, sumVotingPower, List.sum_nil, if_true]
    rw [hval]
    exact ⟨Or.inr rfl, fun _ => rfl, rfl⟩
  · have hval : vals.UpdateWithChangeSet diff = (some Err.ErrValidatorNotFound, vals) := by
      unfold ValidatorSet.UpdateWithChangeSet
      simp only [hnodup, not_true_eq_false, if_false, hrem, hall]
      simp
    rw [hval]
    refine ⟨Or.inl rfl, ?_, rfl⟩
    intro hmem
    exfalso
    apply hall
    simp only [List.all_eq_true, List.any_eq_true, decide_eq_true_eq]
    exact hmem

end types

namespace state

open types

/-- Validator updates that pass stage E have distinct addresses. -/
theorem validateValidatorUpdates_nodup (abciUpdates : List abci.ValidatorUpdate)
    (params : ValidatorParams)
    (h : ValidateValidatorUpdates abciUpdates params = none) :
    (abciUpdates.map (fun u => u.PubKey.Address)).Nodup := by
  unfold ValidateValidatorUpdates at h
  split_ifs at h with h1 h2 h3
  exact h3

/-- The conversion of validator updates keeps their addresses. -/
theorem validatorUpdates_addresses (abciUpdates : List abci.ValidatorUpdate) :
    (PB2TM.ValidatorUpdates abciUpdates).map (fun v => v.Address) =
      abciUpdates.map (fun u => u.PubKey.Address) := by
  simp [PB2TM.ValidatorUpdates, NewValidator, List.map_map, Function.comp_def]

/-- Stage B pairs the validators of the last set, in their order. -/
theorem voteInfos_validators (vals : List Validator) (sigs : List CommitSig) :
    (voteInfos vals sigs).map (fun vote => vote.Validator) = vals := by
  induction vals generalizing sigs with
  | nil => rfl
  | cons v vs ih => simp [voteInfos, ih]

/-- Stage B: the entry at index `i` is the validator at index `i` with a flag that is true
iff the signature at index `i` is a `ForBlock`. -/
theorem voteInfos_getElem? (vals : List Validator) (sigs : List CommitSig) (i : Nat) :
    (voteInfos vals sigs)[i]? =
      (vals[i]?).map (fun v =>
        { Validator := v,
          SignedLastBlock :=
            match sigs[i]? with
            | some sig => sig.isForBlock
            | none => false }) := by
  induction vals generalizing sigs i with
  | nil => simp [voteInfos]
  | cons v vs ih =>
    cases i with
    | zero =>
      cases sigs <;> simp [voteInfos]
    | succ i =>
      cases sigs with
      | nil => simp [voteInfos, ih]
      | cons sig sigs => simp [voteInfos, ih]

/-- A signature is counted iff it is a `ForBlock`. -/
theorem isForBlock_iff (sig : CommitSig) :
    sig.isForBlock = true ↔ ∃ s a t, sig = CommitSig.ForBlock s a t := by
  cases sig <;> simp [CommitSig.isForBlock]

/-- Stage C leaves the log of `BeginBlock` requests as it is. -/
theorem deliverTxs_recording {ω : Type} (env : Collaborators ω) (txs : List (List Nat))
    (w : ω) (log : List abci.RequestBeginBlock) :
    deliverTxs env.recording txs (w, log) =
      ((deliverTxs env txs w).1, ((deliverTxs env txs w).2, log)) := by
  induction txs generalizing w with
  | nil => rfl
  | cons tx txs ih =>
    simp only [deliverTxs, Collaborators.recording]
    rcases h : env.DeliverTx tx w with ⟨_ | r, w1⟩
    · simp
    · simp only
      have := ih w1
      simp only [Collaborators.recording] at this
      rw [this]
      rcases h2 : deliverTxs env txs w1 with ⟨_ | rs, w2⟩ <;> simp

/-- Stages B to D send one `BeginBlock` request, the one of stage B. -/
theorem execBlockOnProxyApp_recording {ω : Type} (env : Collaborators ω) (state : State)
    (block : Block) (w : ω) (log : List abci.RequestBeginBlock) :
    execBlockOnProxyApp env.recording state block (w, log) =
      ((execBlockOnProxyApp env state block w).1,
        ((execBlockOnProxyApp env state block w).2,
          log ++ [beginBlockRequest env state block w])) := by
  have hreq : beginBlockRequest env.recording state block (w, log) =
      beginBlockRequest env state block w := rfl
  simp only [execBlockOnProxyApp, hreq]
  simp only [Collaborators.recording]
  rcases h : env.BeginBlock (beginBlockRequest env state block w) w with ⟨_ | _, w1⟩
  · simp
  · simp only
    have hd := deliverTxs_recording env block.Txs w1
      (log ++ [beginBlockRequest env state block w])
    simp only [Collaborators.recording] at hd
    rw [hd]
    rcases h2 : deliverTxs env block.Txs w1 with ⟨_ | rs, w2⟩
    · simp
    · simp only
      rcases h3 : env.EndBlock { Height := block.Header.Height } w2 with ⟨_ | e, w3⟩ <;> simp

/-- Stage J leaves the log of `BeginBlock` requests as it is. -/
theorem fireEvents_recording {ω : Type} (env : Collaborators ω) (block : Block)
    (res : ABCIResponses) (w : ω) (log : List abci.RequestBeginBlock) :
    fireEvents env.recording block res (w, log) = (fireEvents env block res w, log) := by
  have hfold : ∀ (ps : List (List Nat × abci.ResponseDeliverTx)) (w0 : ω),
      ps.foldl (fun acc p => env.recording.Publish (Event.Tx p.1 p.2) acc) (w0, log) =
        (ps.foldl (fun acc p => env.Publish (Event.Tx p.1 p.2) acc) w0, log) := by
    intro ps
    induction ps with
    | nil => intro w0; rfl
    | cons p ps ih =>
      intro w0
      simp only [List.foldl_cons]
      exact ih _
  unfold fireEvents
  simp only
  have h1 : env.recording.Publish (Event.NewBlockHeader block.Header)
      (env.recording.Publish (Event.NewBlock block) (w, log)) =
      (env.Publish (Event.NewBlockHeader block.Header)
        (env.Publish (Event.NewBlock block) w), log) := rfl
  rw [h1, hfold]
  split_ifs <;> rfl

end state

namespace state

open types

/-- Stage F on validator updates that passed stage E and remove all the validators of
`state.NextValidators`: the diff algorithm's error is returned, `ErrValidatorNotFound` or
`ErrEmptyValidatorSet`, and the latter when every update names a validator of the set. -/
theorem updateState_removing_all_error {ω : Type} (env : Collaborators ω) (state : State)
    (blockID : BlockID) (block : Block) (res : ABCIResponses)
    (h : RemovesAll state.NextValidators res.EndBlock.ValidatorUpdates)
    (hval : ValidateValidatorUpdates res.EndBlock.ValidatorUpdates
      state.ConsensusParams.Validator = none) :
    ∃ err, updateState env state blockID block res = .error err ∧
      (err = Err.ErrValidatorNotFound ∨ err = Err.ErrEmptyValidatorSet) ∧
      ((∀ u ∈ res.EndBlock.ValidatorUpdates,
          ∃ v ∈ state.NextValidators.Validators, v.Address = u.PubKey.Address) →
        err = Err.ErrEmptyValidatorSet) := by
  have hnodup : ((PB2TM.ValidatorUpdates res.EndBlock.ValidatorUpdates).map
      (fun v => v.Address)).Nodup := by
    rw [validatorUpdates_addresses]
    exact validateValidatorUpdates_nodup _ _ hval
  have hincr : ∀ a : Address,
      a ∈ state.NextValidators.IncrementProposerPriority.Validators.map (fun v => v.Address) ↔
        a ∈ state.NextValidators.Validators.map (fun v => v.Address) := by
    intro a
    rw [incrementProposerPriority_addresses]
  obtain ⟨hkind, hempty, _⟩ := updateWithChangeSet_removing_all_error
    state.NextValidators.IncrementProposerPriority
    (PB2TM.ValidatorUpdates res.EndBlock.ValidatorUpdates) hnodup
    (by
      intro d hd
      obtain ⟨u, hu, rfl⟩ := List.mem_map.1 hd
      simp [NewValidator, h.1 u hu])
    (by
      intro v hv
      obtain ⟨v0, hv0, hEq⟩ := List.mem_map.1 ((hincr v.Address).1 (List.mem_map.2 ⟨v, hv, rfl⟩))
      obtain ⟨u, hu, hua⟩ := h.2 v0 hv0
      exact ⟨NewValidator u.PubKey u.Power.toNat,
        List.mem_map.2 ⟨u, hu, rfl⟩, by simp [NewValidator, hua, hEq]⟩)
  have hempty2 : (∀ u ∈ res.EndBlock.ValidatorUpdates,
      ∃ v ∈ state.NextValidators.Validators, v.Address = u.PubKey.Address) →
      (state.NextValidators.IncrementProposerPriority.UpdateWithChangeSet
        (PB2TM.ValidatorUpdates res.EndBlock.ValidatorUpdates)).1 =
        some Err.ErrEmptyValidatorSet := by
    intro hmem
    apply hempty
    intro d hd
    obtain ⟨u, hu, rfl⟩ := List.mem_map.1 hd
    obtain ⟨v0, hv0, hEq⟩ := hmem u hu
    obtain ⟨v, hv, hva⟩ := List.mem_map.1 ((hincr v0.Address).2 (List.mem_map.2 ⟨v0, hv0, rfl⟩))
    exact ⟨v, hv, by simp [NewValidator, hva, hEq]⟩
  rcases hr : state.NextValidators.IncrementProposerPriority.UpdateWithChangeSet
      (PB2TM.ValidatorUpdates res.EndBlock.ValidatorUpdates) with ⟨_ | err, nValSet⟩
  · rw [hr] at hkind
    simp at hkind
  · rw [hr] at hkind hempty2
    refine ⟨err, ?_, ?_, ?_⟩
    · unfold updateState
      dsimp only
      rw [hr]
    · simpa using hkind
    · intro hmem
      simpa using hempty2 hmem

/-- C14: when the validator updates that the application returns in `EndBlock` for this block
remove all the validators of `state.NextValidators`, `ApplyBlock` (a total function, so it
does not panic) returns a non-nil error and the state it was given, whose `NextValidators`
is therefore unchanged and still non-empty. Moreover a block that passes stage A leaves the
collaborators as they are after `EndBlock`: nothing is committed, saved or published. When
the responses pass stage E as well, the error is that of the diff algorithm,
`ErrValidatorNotFound` or `ErrEmptyValidatorSet`, and it is `ErrEmptyValidatorSet` when every
update names a validator of `state.NextValidators`. -/
theorem applyBlock_removing_all_validators {ω : Type} (env : Collaborators ω) (state : State)
    (blockID : BlockID) (block : Block) (w w1 : ω) (res : ABCIResponses)
    (hne : state.NextValidators.Validators ≠ [])
    (hrun : execBlockOnProxyApp env state block w = (some res, w1))
    (hall : RemovesAll state.NextValidators res.EndBlock.ValidatorUpdates) :
    (ApplyBlock env state blockID block w).1.2.2 ≠ none ∧
    (ApplyBlock env state blockID block w).1.1 = state ∧
    (ApplyBlock env state blockID block w).1.1.NextValidators = state.NextValidators ∧
    (ApplyBlock env state blockID block w).1.1.NextValidators.Validators ≠ [] ∧
    (validateBlock env state block = true →
      (ApplyBlock env state blockID block w).2 = w1) ∧
    (validateBlock env state block = true → validateResponses env state res = true →
      ((ApplyBlock env state blockID block w).1.2.2 = some Err.ErrValidatorNotFound ∨
        (ApplyBlock env state blockID block w).1.2.2 = some Err.ErrEmptyValidatorSet) ∧
      ((∀ u ∈ res.EndBlock.ValidatorUpdates,
          ∃ v ∈ state.NextValidators.Validators, v.Address = u.PubKey.Address) →
        (ApplyBlock env state blockID block w).1.2.2 = some Err.ErrEmptyValidatorSet)) := by
  have key : ∃ e, ApplyBlock env state blockID block w =
        ((state, 0, some e), if validateBlock env state block = true then w1 else w) ∧
      (validateBlock env state block = true → validateResponses env state res = true →
        (e = Err.ErrValidatorNotFound ∨ e = Err.ErrEmptyValidatorSet) ∧
        ((∀ u ∈ res.EndBlock.ValidatorUpdates,
            ∃ v ∈ state.NextValidators.Validators, v.Address = u.PubKey.Address) →
          e = Err.ErrEmptyValidatorSet)) := by
    unfold ApplyBlock
    by_cases hv : validateBlock env state block = true
    · simp only [hv, Bool.true_eq_false, if_false, if_true, hrun]
      by_cases hr : validateResponses env state res = true
      · have hval : ValidateValidatorUpdates res.EndBlock.ValidatorUpdates
            state.ConsensusParams.Validator = none := by
          simp only [validateResponses, Bool.and_eq_true, decide_eq_true_eq] at hr
          exact hr.1
        obtain ⟨err, hu, hkind, hempty⟩ :=
          updateState_removing_all_error env state blockID block res hall hval
        refine ⟨err, ?_, fun _ _ => ⟨hkind, hempty⟩⟩
        simp only [hr, Bool.true_eq_false, if_false, hu]
      · have hr2 : validateResponses env state res = false := by simpa using hr
        refine ⟨Err.ErrInvalidAppResponse, ?_, fun _ h => absurd h hr⟩
        simp only [hr2, if_true]
    · have hv2 : validateBlock env state block = false := by simpa using hv
      refine ⟨Err.ErrInvalidBlock, ?_, fun h => absurd h hv⟩
      simp only [hv2, if_true, Bool.false_eq_true, if_false]
  obtain ⟨e, hA, hE⟩ := key
  rw [hA]
  refine ⟨by simp, rfl, rfl, hne, ?_, ?_⟩
  · intro hv
    simp [hv]
  · intro hv hr
    obtain ⟨hkind, hempty⟩ := hE hv hr
    refine ⟨?_, ?_⟩
    · rcases hkind with h | h
      · exact Or.inl (by rw [h])
      · exact Or.inr (by rw [h])
    · intro hmem
      rw [hempty hmem]

/-- The log of `BeginBlock` requests after `ApplyBlock`: the request of stage B is added
when the block passes stage A, and nothing else is. -/
theorem applyBlock_recording {ω : Type} (env : Collaborators ω) (state : State)
    (blockID : BlockID) (block : Block) (w : ω) (log : List abci.RequestBeginBlock) :
    (ApplyBlock env.recording state blockID block (w, log)).2.2 =
      if validateBlock env state block = true then
        log ++ [beginBlockRequest env state block w]
      else log := by
  have hvr : validateBlock env.recording state block = validateBlock env state block := rfl
  unfold ApplyBlock
  rw [hvr, execBlockOnProxyApp_recording]
  by_cases hv : validateBlock env state block = true
  · simp only [hv, if_true, Bool.true_eq_false, if_false]
    rcases hx : execBlockOnProxyApp env state block w with ⟨_ | res, w1⟩
    · rfl
    · simp only
      have hvres : validateResponses env.recording state res =
          validateResponses env state res := rfl
      have hus : updateState env.recording state blockID block res =
          updateState env state blockID block res := rfl
      rw [hvres, hus]
      by_cases hr : validateResponses env state res = false
      · simp [hr]
      · simp only [hr, if_false]
        rcases hu : updateState env state blockID block res with err | newState
        · rfl
        · simp only
          simp only [Collaborators.recording]
          rcases hc : env.Commit w1 with ⟨_ | commit, w2⟩
          · rfl
          · simp only
            rcases hs : env.Save { newState with AppHash := commit.AppHash }
                (env.mempoolUpdate block.Header.Height block.Txs res.DeliverTxs w2)
              with ⟨_ | _, w4⟩
            · rfl
            · simp only
              have hf := fireEvents_recording env block res
                (env.evidenceUpdate { newState with AppHash := commit.AppHash } w4)
                (log ++ [beginBlockRequest env state block w])
              simp only [Collaborators.recording] at hf
              rw [hf]
              simp
  · have hv2 : validateBlock env state block = false := by simpa using hv
    simp [hv2]

end state

namespace state

open types

/-- Witness of C14: a state whose only validator the application removes in the `EndBlock`
of height `2`, and at no other height; the block is the sample block of height `2`. -/
theorem applyBlock_removing_all_validators_witness :
    (sampleState sampleSet1).NextValidators.Validators ≠ [] ∧
    execBlockOnProxyApp (sampleAppAtHeight 2 [{ PubKey := samplePubKey1, Power := 0 }])
        (sampleState sampleSet1) (sampleBlock []) 0 =
      (some
        { DeliverTxs := [{ Code := 0, Data := [1, 2] }],
          EndBlock :=
            { ValidatorUpdates := [{ PubKey := samplePubKey1, Power := 0 }],
              ConsensusParamUpdates := none, AppVersion := 1, Events := [] } }, 3) ∧
    RemovesAll (sampleState sampleSet1).NextValidators
      [{ PubKey := samplePubKey1, Power := 0 }] ∧
    validateBlock (sampleAppAtHeight 2 [{ PubKey := samplePubKey1, Power := 0 }])
        (sampleState sampleSet1) (sampleBlock []) = true ∧
    (ApplyBlock (sampleAppAtHeight 2 [{ PubKey := samplePubKey1, Power := 0 }])
        (sampleState sampleSet1) { Hash := [7], PartSetHeader := (1, []) }
        (sampleBlock []) 0).1.2.2 = some Err.ErrEmptyValidatorSet ∧
    (ApplyBlock (sampleAppAtHeight 2 [{ PubKey := samplePubKey1, Power := 0 }])
        (sampleState sampleSet1) { Hash := [7], PartSetHeader := (1, []) }
        (sampleBlock []) 0).1.1 = sampleState sampleSet1 ∧
    (ApplyBlock (sampleAppAtHeight 2 [{ PubKey := samplePubKey1, Power := 0 }])
        (sampleState sampleSet1) { Hash := [7], PartSetHeader := (1, []) }
        (sampleBlock []) 0).1.1.NextValidators.Validators ≠ [] ∧
    (ApplyBlock (sampleAppAtHeight 2 [{ PubKey := samplePubKey1, Power := 0 }])
        (sampleState sampleSet1) { Hash := [7], PartSetHeader := (1, []) }
        (sampleBlock []) 0).2 = 3 :=
  have h := applyBlock_removing_all_validators
    (sampleAppAtHeight 2 [{ PubKey := samplePubKey1, Power := 0 }])
    (sampleState sampleSet1) { Hash := [7], PartSetHeader := (1, []) } (sampleBlock []) 0 3
    { DeliverTxs := [{ Code := 0, Data := [1, 2] }],
      EndBlock :=
        { ValidatorUpdates := [{ PubKey := samplePubKey1, Power := 0 }],
          ConsensusParamUpdates := none, AppVersion := 1, Events := [] } }
    (by decide) (by decide) ⟨by decide, by decide⟩
  ⟨by decide, by decide, ⟨by decide, by decide⟩, by decide,
    (h.2.2.2.2.2 (by decide) (by decide)).2 (by decide), h.2.1, h.2.2.2.1,
    h.2.2.2.2.1 (by decide)⟩

/-- C15: for a block that passes stage A, the application receives in `ApplyBlock` one
`BeginBlock` request, and its `LastCommitInfo` has one vote entry for each validator of
`state.LastValidators`, in that set's order; the entry at index `i` has
`SignedLastBlock = true` iff the signature at index `i` of `block.LastCommit` is a
`ForBlock`, so an `Absent` signature gives `false`. -/
theorem beginBlock_lastCommitInfo {ω : Type} (env : Collaborators ω) (state : State)
    (blockID : BlockID) (block : Block) (w : ω) (log : List abci.RequestBeginBlock)
    (hvalid : validateBlock env state block = true) :
    ∃ req : abci.RequestBeginBlock,
      (ApplyBlock env.recording state blockID block (w, log)).2.2 = log ++ [req] ∧
      req.LastCommitInfo.Votes.map (fun vote => vote.Validator) =
        state.LastValidators.Validators ∧
      ∀ (i : Nat) (v : Validator), state.LastValidators.Validators[i]? = some v →
        ∃ vote : abci.VoteInfo, req.LastCommitInfo.Votes[i]? = some vote ∧ vote.Validator = v ∧
          (vote.SignedLastBlock = true ↔
            ∃ s a t, block.LastCommit.Signatures[i]? = some (CommitSig.ForBlock s a t)) ∧
          (block.LastCommit.Signatures[i]? = some CommitSig.Absent →
            vote.SignedLastBlock = false) := by
  refine ⟨beginBlockRequest env state block w, ?_, ?_, ?_⟩
  · rw [applyBlock_recording, if_pos hvalid]
  · exact voteInfos_validators _ _
  · intro i v hv
    refine ⟨{ Validator := v,
              SignedLastBlock :=
                match block.LastCommit.Signatures[i]? with
                | some sig => sig.isForBlock
                | none => false }, ?_, rfl, ?_, ?_⟩
    · show (voteInfos state.LastValidators.Validators block.LastCommit.Signatures)[i]? = _
      rw [voteInfos_getElem?, hv]
      rfl
    · cases hs : block.LastCommit.Signatures[i]? with
      | none => simp
      | some sig =>
        simp only [Option.some.injEq]
        exact isForBlock_iff sig
    · intro hs
      simp [hs, CommitSig.isForBlock]

/-- Witness of C15: the test's case `one absent`, a state of two validators and a block whose
last commit holds a `ForBlock` signature and an `Absent` one. -/
theorem beginBlock_lastCommitInfo_witness :
    validateBlock (sampleApp []) (sampleState sampleSet2)
        (sampleBlock [CommitSig.ForBlock [1] 3 0, CommitSig.Absent]) = true ∧
    ∃ req : abci.RequestBeginBlock,
      (ApplyBlock (sampleApp []).recording (sampleState sampleSet2)
          { Hash := [7], PartSetHeader := (1, []) }
          (sampleBlock [CommitSig.ForBlock [1] 3 0, CommitSig.Absent]) (0, [])).2.2 =
        [] ++ [req] ∧
      req.LastCommitInfo.Votes.map (fun vote => vote.Validator) =
        (sampleState sampleSet2).LastValidators.Validators ∧
      ∀ (i : Nat) (v : Validator), (sampleState sampleSet2).LastValidators.Validators[i]? = some v →
        ∃ vote : abci.VoteInfo, req.LastCommitInfo.Votes[i]? = some vote ∧ vote.Validator = v ∧
          (vote.SignedLastBlock = true ↔
            ∃ s a t,
              (sampleBlock [CommitSig.ForBlock [1] 3 0, CommitSig.Absent]).LastCommit.Signatures[i]?
                = some (CommitSig.ForBlock s a t)) ∧
          ((sampleBlock [CommitSig.ForBlock [1] 3 0, CommitSig.Absent]).LastCommit.Signatures[i]?
              = some CommitSig.Absent →
            vote.SignedLastBlock = false) :=
  ⟨by decide,
    beginBlock_lastCommitInfo (sampleApp []) (sampleState sampleSet2)
      { Hash := [7], PartSetHeader := (1, []) }
      (sampleBlock [CommitSig.ForBlock [1] 3 0, CommitSig.Absent]) 0 [] (by decide)⟩

end state
